import Mathlib

/-!
Verification development for the Sidekiq Queue Kill Switch userscript
(`src/tampermonkey/sqks.user.js`), the most capable variant of the
convergence-and-submission engine.  The JavaScript source is shallowly
embedded: DOM documents, forms and controls become inductive data, the pure
helper functions become Lean functions translated line by line, and the
effectful convergence controller becomes a fuel-based state machine driven
by an explicit environment (the responses the page and the network would
give).  Theorems about the embedding settle the specification claims.
-/

namespace SQKS

/-! ## JavaScript string primitives

JS `String.prototype.includes`, `trim`, `toLowerCase` and friends, modelled
over `List Char` / `String`.  `toLowerCase` is modelled character-wise with
`Char.toLower`, which agrees with JS on the ASCII range used by the script's
markers and attribute values. -/

/-- Does `pat` occur as a leading block of `l`? -/
def chStart : List Char → List Char → Bool
  | [], _ => true
  | _ :: _, [] => false
  | a :: as, b :: bs => a == b && chStart as bs

/-- Does `pat` occur anywhere inside `l`?  (JS `includes`.) -/
def chHas (pat : List Char) : List Char → Bool
  | [] => pat.isEmpty
  | b :: bs => chStart pat (b :: bs) || chHas pat bs

/-- JS `s.includes(pat)`. -/
def strContains (s pat : String) : Bool := chHas pat.data s.data

/-- JS `s.startsWith(pat)`. -/
def strStarts (s pat : String) : Bool := chStart pat.data s.data

/-- JS `s.toLowerCase()` (ASCII-faithful). -/
def lowerStr (s : String) : String := String.mk (s.data.map Char.toLower)

/-- JS `s.trim()`: whitespace stripped from both ends. -/
def trimStr (s : String) : String :=
  String.mk (((s.data.dropWhile Char.isWhitespace).reverse.dropWhile
    Char.isWhitespace).reverse)

/-- Case-insensitive containment as the script uses it: trim, lowercase,
then substring test. -/
def containsCI (s pat : String) : Bool := strContains (lowerStr (trimStr s)) pat

/-- JS falsiness of a nullable string: `null`/`undefined` or `""`. -/
def jsFalsy : Option String → Bool
  | none => true
  | some s => s.isEmpty

/-- JS `a || b` on a nullable string `a` with string default `b`. -/
def jsOrElse (a : Option String) (b : String) : String :=
  match a with
  | none => b
  | some s => if s.isEmpty then b else s

/-! ## URL model

The script builds URLs with `new URL(ref, window.location.origin)`: the base
is always a bare origin such as `"https://host.example"`.  We model the
resulting object by its `origin`, `pathname` and `search` components.  The
resolution below covers absolute `http(s)` references, protocol-relative
`//host/...` references, root-relative `/...` references and bare relative
references against an origin base; exotic schemes, default-port and
dot-segment normalisation are outside the source's use and are not
modelled. -/

structure UrlParts where
  origin : String
  pathname : String
  search : String
deriving DecidableEq, Repr, Inhabited

/-- Split a char list at the first occurrence of any of the given stop
characters: returns (before, from-stop-char-on). -/
def splitAtAny (stops : List Char) : List Char → (List Char × List Char)
  | [] => ([], [])
  | c :: cs =>
    if stops.contains c then ([], c :: cs)
    else
      let r := splitAtAny stops cs
      (c :: r.1, r.2)

/-- Path and search of a URL tail (the part after the origin), dropping any
fragment. -/
def pathAndSearch (l : List Char) : (String × String) :=
  let noFrag := (splitAtAny ['#'] l).1
  let p := (splitAtAny ['?'] noFrag).1
  let rest := noFrag.drop p.length
  (String.mk p, String.mk rest)

/-- Parse the host-and-rest part that follows `scheme://`. -/
def parseAfterScheme (scheme : String) (l : List Char) : Option UrlParts :=
  let host := (splitAtAny ['/', '?', '#'] l).1
  if host.isEmpty then none
  else
    let rest := l.drop host.length
    let ps :=
      match rest with
      | '/' :: _ => pathAndSearch rest
      | _ => pathAndSearch ('/' :: rest)
    some { origin := scheme ++ "://" ++ String.mk host
           pathname := ps.1, search := ps.2 }

/-- Scheme (before `://`) of an origin string such as `"https://h"`. -/
def schemeOf (origin : String) : String :=
  String.mk (splitAtAny [':'] origin.data).1

/-- Model of `new URL(ref, base)` where `base` is a bare origin. -/
def parseUrl (r : String) (baseOrigin : String) : Option UrlParts :=
  if strStarts r "https://" then parseAfterScheme "https" (r.data.drop 8)
  else if strStarts r "http://" then parseAfterScheme "http" (r.data.drop 7)
  else if strStarts r "//" then parseAfterScheme (schemeOf baseOrigin) (r.data.drop 2)
  else if strStarts r "/" then
    let ps := pathAndSearch r.data
    some { origin := baseOrigin, pathname := ps.1, search := ps.2 }
  else
    let ps := pathAndSearch ('/' :: r.data)
    some { origin := baseOrigin, pathname := ps.1, search := ps.2 }

/-- `normalizeActionPathKey` from the source: resolve against the page
origin and keep `pathname + search`; on a parse failure return the raw
action string. -/
def normalizeActionPathKey (pageOrigin action : String) : String :=
  match parseUrl action pageOrigin with
  | some u => u.pathname ++ u.search
  | none => action

/-! ## Queue-name extraction

`getQueueNameFromAction` matches `/\/sidekiq\/queues\/([^/?]+)/` and
percent-decodes the capture.  `decodeURIComponent` is modelled byte-wise
(`%xx` pairs become the corresponding character; malformed escapes are
passed through, where JS would raise `URIError`; multi-byte UTF-8 sequences
are not recombined) - none of the claims depend on those corners. -/

def hexDigit (c : Char) : Option Nat :=
  if '0' ≤ c ∧ c ≤ '9' then some (c.toNat - '0'.toNat)
  else if 'a' ≤ c ∧ c ≤ 'f' then some (c.toNat - 'a'.toNat + 10)
  else if 'A' ≤ c ∧ c ≤ 'F' then some (c.toNat - 'A'.toNat + 10)
  else none

def percentDecodeAux : Nat → List Char → List Char
  | 0, l => l
  | fuel + 1, l =>
    match l with
    | [] => []
    | '%' :: a :: b :: rest2 =>
      match hexDigit a, hexDigit b with
      | some x, some y => Char.ofNat (16 * x + y) :: percentDecodeAux fuel rest2
      | _, _ => '%' :: percentDecodeAux fuel (a :: b :: rest2)
    | c :: rest => c :: percentDecodeAux fuel rest

/-- Byte-wise percent decoding; the fuel argument (list length suffices) only
makes the recursion structural, it never runs out. -/
def percentDecode (l : List Char) : List Char := percentDecodeAux l.length l

/-- Longest leading run of chars allowed by `[^/?]+`. -/
def takeQueueChars : List Char → List Char
  | [] => []
  | c :: cs => if c == '/' || c == '?' then [] else c :: takeQueueChars cs

/-- Regex scan: try the marker at every start position (the engine restarts
one character later when `[^/?]+` fails to capture). -/
def scanQueueName (marker : List Char) : List Char → Option (List Char)
  | [] => none
  | c :: rest =>
    if chStart marker (c :: rest) then
      let nm := takeQueueChars ((c :: rest).drop marker.length)
      if nm.isEmpty then scanQueueName marker rest else some nm
    else scanQueueName marker rest

/-- `getQueueNameFromAction` from the source. -/
def getQueueNameFromAction (action : String) : String :=
  match scanQueueName "/sidekiq/queues/".data action.data with
  | some nm => String.mk (percentDecode nm)
  | none => "unknown"

/-! ## DOM data model

A `Control` is a submit-capable element inside a form (`<input>` or
`<button>`); attribute reads (`getAttribute`) yield `Option String`.  A
`Form` is a queue form: its `action` attribute and its child elements.  A
`Doc` is the projection of a document onto exactly the features the script
queries: the queue table with its forms, the login-page markers, the
header-token sources, and the body text.  The inline-script regex scans of
`extractTokenFromInlineScripts` are represented by the first candidate
string each pattern family would capture (fields `inlineParamCandidate`,
`inlineCsrfCandidate`, `inlineGlobalCandidate`); the token-shape filter the
source applies to those captures is applied here, in
`extractTokenFromInlineScripts` below. -/

structure Control where
  /-- `true` for `<button>`, `false` for `<input>`. -/
  isButton : Bool
  typeAttr : Option String
  name : Option String
  value : Option String
  /-- visible text content (relevant for buttons). -/
  text : String
deriving DecidableEq, Repr, Inhabited

structure Form where
  /-- the `action` attribute (present on every form the selectors match). -/
  action : String
  controls : List Control
deriving DecidableEq, Repr, Inhabited

structure Doc where
  hasQueuesTable : Bool
  /-- queue forms in document order (the source scopes enumeration to the
  table and the live-form lookup to the whole document; both are modelled
  over this one collection). -/
  forms : List Form
  bodyText : String
  hasPasswordInput : Bool
  hasLoginForm : Bool
  title : Option String
  /-- `content` of `meta[name="csrf-token"]`, when that element exists. -/
  metaCsrfContent : Option String
  /-- `content` of `meta[name="csrf-param"]`, when that element exists. -/
  metaParamContent : Option String
  inlineParamCandidate : Option String
  inlineCsrfCandidate : Option String
  inlineGlobalCandidate : Option String
  /-- `data-csrf` of the first rails-ujs anchor/button carrying one. -/
  dataCsrfAttr : Option String
deriving DecidableEq, Repr, Inhabited

/-- A document with none of the interesting features; concrete documents are
built by overriding fields. -/
def blankDoc : Doc where
  hasQueuesTable := false
  forms := []
  bodyText := ""
  hasPasswordInput := false
  hasLoginForm := false
  title := none
  metaCsrfContent := none
  metaParamContent := none
  inlineParamCandidate := none
  inlineCsrfCandidate := none
  inlineGlobalCandidate := none
  dataCsrfAttr := none

/-! ## Constants and heuristics from the source -/

def ALLOWED_ACTIONS : List String := ["pause", "unpause"]

def NATIVE_FORM_ACTIONS : List String := ["pause", "unpause"]

def MAX_PASSES : Nat := 5

def LIVE_DOM_RECHECK_INTERVAL : Nat := 4

def ENABLE_LIVE_DOM_RECHECK : Bool := true

def LOGIN_MARKERS : List String :=
  ["type=\"password\"", "name=\"password\"", "action=\"/users/sign_in\"",
   "action=\"/login\"", "sign in", "log in"]

/-- `looksLikeLoginPageFromText` from the source. -/
def looksLikeLoginPageFromText (htmlText : String) : Bool :=
  if htmlText.isEmpty then false
  else LOGIN_MARKERS.any fun marker => strContains (lowerStr htmlText) marker

/-- `looksLikeLoginPageFromDoc` from the source. -/
def looksLikeLoginPageFromDoc (doc : Doc) : Bool :=
  doc.hasPasswordInput || doc.hasLoginForm ||
    (match doc.title with
     | some t => looksLikeLoginPageFromText t
     | none => false)

/-- `TOKEN_PATTERN` membership: trimmed value matches
`^[A-Za-z0-9+/_=-]{20,200}$` (`isTokenLike` in the source). -/
def isTokenLike (v : Option String) : Bool :=
  match v with
  | none => false
  | some s =>
    if s.isEmpty then false
    else
      let t := trimStr s
      decide (20 ≤ t.length) && decide (t.length ≤ 200) &&
        t.data.all fun c =>
          c.isAlphanum || c == '+' || c == '/' || c == '_' || c == '=' || c == '-'

inductive DiagKind
  | NONE | LOGIN | CSRF | RBAC | UNKNOWN
deriving DecidableEq, Repr, Inhabited

/-- `classify403` from the source: heuristic forbidden-response
classification from the body text and the `location` response header. -/
def classify403 (bodyText : String) (location : Option String) : DiagKind :=
  let lower := lowerStr bodyText
  let loc := lowerStr (location.getD "")
  if looksLikeLoginPageFromText bodyText || strContains loc "login"
      || strContains loc "sign_in" then .LOGIN
  else if strContains lower "actioncontroller::invalidauthenticitytoken"
      || strContains lower "invalid authenticity token"
      || strContains lower "csrf" then .CSRF
  else if strContains lower "not authorized" || strContains lower "forbidden"
      || strContains lower "permission" || strContains lower "policy"
      || strContains lower "pundit" || strContains lower "cancan" then .RBAC
  else .UNKNOWN

/-! ## Submit-control discovery (`findSubmitButton`) -/

/-- Attribute selector `[type="submit"]`; HTML matches the `type` attribute
ASCII case-insensitively. -/
def typeAttrIs (c : Control) (s : String) : Bool :=
  match c.typeAttr with
  | some t => lowerStr t == s
  | none => false

/-- `input[type="submit"]`. -/
def isSubmitInput (c : Control) : Bool := !c.isButton && typeAttrIs c "submit"

/-- Matches `input[type="submit"][name="${actionType}"], button[name="${actionType}"]`. -/
def matchesByName (actionType : String) (c : Control) : Bool :=
  (isSubmitInput c || c.isButton) && c.name == some actionType

/-- Matches `input[type="submit"], button[type="submit"], button:not([type])`. -/
def isFallbackCandidate (c : Control) : Bool :=
  isSubmitInput c || (c.isButton && (typeAttrIs c "submit" || c.typeAttr == none))

/-- The fallback scan of `findSubmitButton`: skip anything delete-named (by
name, value or visible text), accept the first control whose value or text
equals the action type. -/
def findSubmitFallback (form : Form) (actionType : String) : Option Control :=
  (form.controls.filter isFallbackCandidate).find? fun el =>
    let nm := lowerStr (trimStr (el.name.getD ""))
    let va := lowerStr (trimStr (el.value.getD ""))
    let tx := lowerStr (trimStr el.text)
    if strContains nm "delete" || strContains va "delete" || strContains tx "delete" then
      false
    else va == actionType || tx == actionType

/-- `findSubmitButton` from the source: allow-listed action types only;
primary name-based selection (with a delete double-check on the name);
fallback scan by value/text. -/
def findSubmitButton (form : Form) (actionType : String) : Option Control :=
  if !(ALLOWED_ACTIONS.contains actionType) then none
  else
    match form.controls.find? (matchesByName actionType) with
    | some byName =>
      if !(strContains (lowerStr (byName.name.getD "")) "delete") then some byName
      else findSubmitFallback form actionType
    | none => findSubmitFallback form actionType

/-! ## Enumeration (`getActionableQueues`) -/

/-- `getAuthenticityToken` from the source: the form's own hidden
`authenticity_token` input, reading the `value` property (absent attribute
reads as `""`). -/
def getAuthenticityToken (form : Form) : Option String :=
  match form.controls.find? (fun c => !c.isButton && c.name == some "authenticity_token") with
  | some c => some (c.value.getD "")
  | none => none

structure Candidate where
  queueName : String
  action : String
  actionPathKey : String
  formToken : String
  submitName : String
  submitValue : String
  actionType : String
deriving DecidableEq, Repr, Inhabited

/-- The per-form body of the enumeration loop in `getActionableQueues`:
`none` when the queue is skipped (already in the desired state, token
missing, control nameless, or delete-named). -/
def candidateOfForm (pageOrigin actionType : String) (form : Form) : Option Candidate :=
  let action := form.action
  let queueName := getQueueNameFromAction action
  match findSubmitButton form actionType with
  | none => none
  | some submitButton =>
    let formToken := getAuthenticityToken form
    if jsFalsy formToken then none
    else
      let submitName := submitButton.name
      if jsFalsy submitName then none
      else
        let n := submitName.getD ""
        if lowerStr n == "delete" then none
        else
          some { queueName
                 action
                 actionPathKey := normalizeActionPathKey pageOrigin action
                 formToken := formToken.getD ""
                 submitName := n
                 submitValue := jsOrElse submitButton.value n
                 actionType }

/-- `getActionableQueues` from the source (the `verbose` flag only controls
logging and is dropped): no queue table means no candidates; otherwise
filter to queue-action forms and keep the actionable ones in document
order. -/
def getActionableQueues (pageOrigin : String) (doc : Doc) (actionType : String) :
    List Candidate :=
  if !doc.hasQueuesTable then []
  else
    (doc.forms.filter fun f => strContains f.action "/sidekiq/queues/").filterMap
      (candidateOfForm pageOrigin actionType)

/-- `buildQueueTokenMap` from the source builds a JS `Map` keyed by
`actionPathKey`; we keep the candidate list and model `Map.get` below. -/
def buildQueueTokenMap (pageOrigin : String) (doc : Doc) (actionType : String) :
    List Candidate :=
  getActionableQueues pageOrigin doc actionType

/-- JS `Map.set`/`Map.get` over the insertion list: later insertions with
the same key overwrite earlier ones, so `get` returns the last match. -/
def mapGet (l : List Candidate) (key : String) : Option Candidate :=
  l.foldl (fun acc q => if q.actionPathKey == key then some q else acc) none

/-! ## Header-token resolution (`getHeaderCsrfTokenExtended`) -/

structure RespHeaders where
  xCsrfToken : Option String
deriving DecidableEq, Repr, Inhabited

/-- `extractTokenFromInlineScripts` from the source, over the captured
candidates stored on `Doc` (see the `Doc` docstring): each pattern family
yields its first capture, accepted only when token-shaped, with the
param-named pattern tried before the generic csrf and global-assignment
patterns. -/
def extractTokenFromInlineScripts (doc : Doc) (paramName : Option String) :
    Option (String × String) :=
  let fromParam :=
    match paramName, doc.inlineParamCandidate with
    | some p, some t => if isTokenLike (some t) then some (t, "script-inline-" ++ p) else none
    | _, _ => none
  match fromParam with
  | some hit => some hit
  | none =>
    match doc.inlineCsrfCandidate with
    | some t =>
      if isTokenLike (some t) then some (t, "script-inline-csrf")
      else
        match doc.inlineGlobalCandidate with
        | some t2 => if isTokenLike (some t2) then some (t2, "script-inline-global") else none
        | none => none
    | none =>
      match doc.inlineGlobalCandidate with
      | some t2 => if isTokenLike (some t2) then some (t2, "script-inline-global") else none
      | none => none

/-- Steps 5-6 of the chain: response-header fallback, then
`(null, "missing")`. -/
def getHeaderCsrfStep5 (responseHeaders : Option RespHeaders) : Option String × String :=
  match responseHeaders with
  | some hdrs =>
    match hdrs.xCsrfToken with
    | some x =>
      if isTokenLike (some x) then (some (trimStr x), "header-x-csrf-token")
      else (none, "missing")
    | none => (none, "missing")
  | none => (none, "missing")

/-- Steps 3-4 of the chain: rails-ujs `data-csrf` attribute, then generic
inline-script assignment patterns. -/
def getHeaderCsrfStep3 (doc : Doc) (responseHeaders : Option RespHeaders) :
    Option String × String :=
  let step4 :=
    match extractTokenFromInlineScripts doc none with
    | some (t, src) => (some t, src)
    | none => getHeaderCsrfStep5 responseHeaders
  match doc.dataCsrfAttr with
  | some dataToken =>
    if isTokenLike (some dataToken) then (some (trimStr dataToken), "data-csrf-attr")
    else step4
  | none => step4

/-- Step 2 of the chain: a `meta[name="csrf-param"]`-declared parameter name
cross-referenced against the inline scripts. -/
def getHeaderCsrfStep2 (doc : Doc) (responseHeaders : Option RespHeaders) :
    Option String × String :=
  match doc.metaParamContent with
  | some paramName =>
    if paramName.isEmpty then getHeaderCsrfStep3 doc responseHeaders
    else
      match extractTokenFromInlineScripts doc (some paramName) with
      | some (t, src) => (some t, src)
      | none => getHeaderCsrfStep3 doc responseHeaders
  | none => getHeaderCsrfStep3 doc responseHeaders

/-- `getHeaderCsrfTokenExtended` from the source (its `htmlText` parameter
is unused there and dropped here): the ordered chain of page-global header
token sources, never falling back to a per-form hidden input. -/
def getHeaderCsrfTokenExtended (doc : Doc) (responseHeaders : Option RespHeaders) :
    Option String × String :=
  match doc.metaCsrfContent with
  | some content =>
    if !content.isEmpty && isTokenLike (some content) then (some (trimStr content), "meta")
    else getHeaderCsrfStep2 doc responseHeaders
  | none => getHeaderCsrfStep2 doc responseHeaders

/-! ## Direct network submission (`doQueuePost`)

The network is an explicit input: either the response the server would give
(with an oracle bit for whether `DOMParser` would find `table.queues` in the
body) or a transport failure with its message.  Header construction,
redaction and truncation of the logged body snippet are presentation-only
in the source and are not modelled. -/

structure NetResponse where
  /-- `response.type === "opaqueredirect"` (manual-redirect mode). -/
  isOpaqueRedirect : Bool
  status : Nat
  contentType : Option String
  location : Option String
  bodyText : String
  /-- whether `DOMParser(bodyText)` contains `table.queues`. -/
  bodyHasQueuesTable : Bool
deriving DecidableEq, Repr, Inhabited

inductive NetBehavior
  | resp (r : NetResponse)
  | fail (msg : String)
deriving DecidableEq, Repr, Inhabited

inductive ReqMode
  | xhr | form
deriving DecidableEq, Repr, Inhabited

structure PostOutcome where
  ok : Bool
  status : Nat
  is403 : Bool
  bodySnippet : String
  location : Option String
  loginPage : Bool
  diagKind : DiagKind
  hasQueuesTable : Bool
deriving DecidableEq, Repr, Inhabited

structure PostCall where
  result : Except String PostOutcome
  /-- whether a network request was actually issued (`fetch` reached). -/
  requestSent : Bool
deriving Repr

/-- The exact URL-encoded name/value pairs of the POST body built at the top
of `doQueuePost`. -/
def buildPostBody (formToken submitName submitValue : String) : List (String × String) :=
  [("authenticity_token", formToken), (submitName, submitValue)]

/-- `doQueuePost` from the source: refuse cross-origin targets before any
request; otherwise classify the response.  A thrown error is an
`Except.error`; a transport failure is caught and reported as status 0. -/
def doQueuePost (pageOrigin : String) (url : UrlParts)
    (formToken submitName submitValue : String) (requestMode : ReqMode)
    (net : NetBehavior) : PostCall :=
  let _body := buildPostBody formToken submitName submitValue
  if url.origin != pageOrigin then
    { result := .error "SAFETY: Refusing to POST cross-origin request", requestSent := false }
  else
    match net with
    | .fail msg =>
      { result := .ok { ok := false, status := 0, is403 := false, bodySnippet := msg,
                        location := none, loginPage := false, diagKind := .UNKNOWN,
                        hasQueuesTable := false }
        requestSent := true }
    | .resp r =>
      let isHtml := strContains (r.contentType.getD "") "text/html"
      let shouldReadBody := !r.isOpaqueRedirect &&
        (isHtml || decide (400 ≤ r.status) || (decide (200 ≤ r.status) && decide (r.status < 300)))
      let bodyText := if shouldReadBody then r.bodyText else ""
      let loginPage := shouldReadBody && isHtml && looksLikeLoginPageFromText r.bodyText
      let hasQueuesTable := shouldReadBody && isHtml && !loginPage && r.bodyHasQueuesTable
      let redirectIsSafe :=
        match r.location with
        | none => false
        | some loc =>
          match parseUrl loc pageOrigin with
          | none => false
          | some u => u.origin == pageOrigin || strStarts u.pathname "/sidekiq/queues"
      let ok := (r.status == 302 && redirectIsSafe)
        || (decide (200 ≤ r.status) && decide (r.status < 300) && !loginPage)
        || (requestMode == ReqMode.form && r.status == 200 && hasQueuesTable)
      let is403 := r.status == 403
      let diagKind := if is403 then classify403 bodyText r.location else DiagKind.NONE
      let bodySnippet := if ok then "" else bodyText
      { result := .ok { ok, status := r.status, is403, bodySnippet, location := r.location,
                        loginPage, diagKind, hasQueuesTable }
        requestSent := true }

/-! ## Native form replay (`submitViaNativeForm`) -/

structure NativeRes where
  ok : Bool
  hasQueuesTable : Bool
  loginPage : Bool
  reason : String
  doc : Option Doc
  diagKind : DiagKind
  forbidden : Bool
  bodyText : String
  /-- ghost instrumentation: the live form really was submitted through the
  hidden frame (the source reached `form.requestSubmit` without an
  exception). -/
  submitted : Bool
deriving DecidableEq, Repr, Inhabited

/-- Environment for one native-replay attempt: the live document's queue
forms at submit time, whether the programmatic submission throws, whether
the hidden frame fires `load` within the timeout, and the frame's resulting
document (if accessible). -/
structure NativeEnv where
  liveForms : List Form
  submitThrows : Bool
  loaded : Bool
  frameDoc : Option Doc
deriving Repr, Inhabited

/-- `findLiveFormForQueue` from the source: first live queue form whose
normalized action matches the candidate's `actionPathKey`, paired with
whatever `findSubmitButton` finds in it (possibly nothing). -/
def findLiveFormForQueue (pageOrigin : String) (liveForms : List Form)
    (actionPathKey actionType : String) : Option (Form × Option Control) :=
  match (liveForms.filter fun f => strContains f.action "/sidekiq/queues/").find?
      (fun f => normalizeActionPathKey pageOrigin f.action == actionPathKey) with
  | none => none
  | some f => some (f, findSubmitButton f actionType)

/-- A `NativeRes` for the three paths that never dispatch the form. -/
def nativeAbort (reason : String) : NativeRes :=
  { ok := false, hasQueuesTable := false, loginPage := false, reason,
    doc := none, diagKind := .NONE, forbidden := false, bodyText := "", submitted := false }

/-- `submitViaNativeForm` from the source. -/
def submitViaNativeForm (pageOrigin : String) (nenv : NativeEnv)
    (queueInfo : Candidate) (actionType : String) : NativeRes :=
  match findLiveFormForQueue pageOrigin nenv.liveForms queueInfo.actionPathKey actionType with
  | none => nativeAbort "form_missing"
  | some (_, submitButton) =>
    match submitButton with
    | none => nativeAbort "submit_missing"
    | some _ =>
      if nenv.submitThrows then nativeAbort "submit_error"
      else
        let loaded := nenv.loaded
        let inspected :=
          match nenv.frameDoc with
          | some d =>
            let login := looksLikeLoginPageFromDoc d
            let table := d.hasQueuesTable
            let diag := if !login && !table then classify403 d.bodyText (some "") else DiagKind.NONE
            (table, login, d.bodyText, diag)
          | none => (false, false, "", DiagKind.NONE)
        let hasQueuesTable := inspected.1
        let loginPage := inspected.2.1
        let bodyText := inspected.2.2.1
        let diag := inspected.2.2.2
        let ok := loaded && !loginPage && hasQueuesTable
        let forbidden := !ok && loaded && !loginPage && !hasQueuesTable
        { ok, hasQueuesTable, loginPage
          reason := if loaded then "loaded" else "timeout"
          doc := nenv.frameDoc
          diagKind := if forbidden then diag else .NONE
          forbidden, bodyText, submitted := true }

/-! ## One submission (`submitQueueAction`) -/

structure CsrfContext where
  headerToken : Option String
  tokenSource : String
deriving DecidableEq, Repr, Inhabited

/-- The normalized outcome `submitQueueAction` hands to the convergence
controller. -/
structure SubmitOutcome where
  ok : Bool
  status : Nat
  is403 : Bool
  bodySnippet : String
  loginPage : Bool
  diagKind : DiagKind
  hasQueuesTable : Bool
  freshDoc : Option Doc
deriving DecidableEq, Repr, Inhabited

structure SubmitCallRes where
  result : Except String SubmitOutcome
  /-- a native form submission was dispatched during this call. -/
  nativeSubmitted : Bool
  /-- `doQueuePost` issued a network request during this call. -/
  netPosted : Bool
deriving Repr

/-- `submitQueueAction` from the source: URL construction, the final delete
guard, the native-replay attempt for allow-listed action types with its
three early returns (login / success / forbidden), and otherwise the direct
network request (mode `xhr` with a header token, `form` without). -/
def submitQueueAction (pageOrigin : String) (queueInfo : Candidate)
    (csrfContext : CsrfContext) (actionTypeOverride : Option String)
    (nenv : NativeEnv) (net : NetBehavior) : SubmitCallRes :=
  match parseUrl queueInfo.action pageOrigin with
  | none => { result := .error "Invalid URL", nativeSubmitted := false, netPosted := false }
  | some url =>
    if lowerStr queueInfo.submitName == "delete" then
      { result := .error "SAFETY: Refusing to submit delete action"
        nativeSubmitted := false, netPosted := false }
    else
      let eff := jsOrElse actionTypeOverride queueInfo.actionType
      let nativeRes :=
        if NATIVE_FORM_ACTIONS.contains eff then
          some (submitViaNativeForm pageOrigin nenv queueInfo eff)
        else none
      let natSubmitted :=
        match nativeRes with
        | some nr => nr.submitted
        | none => false
      let earlyReturn : Option SubmitOutcome :=
        match nativeRes with
        | none => none
        | some nr =>
          if nr.loginPage then
            some { ok := false, status := 200, is403 := false, bodySnippet := ""
                   loginPage := true, diagKind := .LOGIN
                   hasQueuesTable := nr.hasQueuesTable, freshDoc := none }
          else if nr.ok then
            some { ok := true, status := 200, is403 := false, bodySnippet := ""
                   loginPage := false, diagKind := .NONE
                   hasQueuesTable := nr.hasQueuesTable, freshDoc := nr.doc }
          else if nr.forbidden then
            some { ok := false, status := 403, is403 := true, bodySnippet := nr.bodyText
                   loginPage := false, diagKind := nr.diagKind
                   hasQueuesTable := nr.hasQueuesTable, freshDoc := none }
          else none
      match earlyReturn with
      | some out => { result := .ok out, nativeSubmitted := natSubmitted, netPosted := false }
      | none =>
        let requestMode := if jsFalsy csrfContext.headerToken then ReqMode.form else ReqMode.xhr
        let post := doQueuePost pageOrigin url queueInfo.formToken queueInfo.submitName
          queueInfo.submitValue requestMode net
        match post.result with
        | .error m =>
          { result := .error m, nativeSubmitted := natSubmitted, netPosted := post.requestSent }
        | .ok res =>
          { result := .ok { ok := res.ok, status := res.status, is403 := res.is403
                            bodySnippet := res.bodySnippet, loginPage := res.loginPage
                            diagKind := res.diagKind, hasQueuesTable := res.hasQueuesTable
                            freshDoc := none }
            nativeSubmitted := natSubmitted, netPosted := post.requestSent }

/-! ## Convergence controller (`convergeQueues`)

The controller is a sequential state machine; its only effects are page
fetches, live-DOM reads, and calls to `submitQueueAction`.  Each kind of
effect is an explicit input stream consumed by a counter (the page and the
server may answer each call differently), and pacing delays are no-ops.
`submitQueueAction` is consumed through its normalized outcome interface -
the record the source returns to the controller.  The run is instrumented
with an event trace (fetches and submissions in order, tagged with the pass
number) and with the enumeration results the controller bases its
success/termination decisions on. -/

structure Stats where
  initial403Count : Nat
  retrySuccessCount : Nat
  tokenRefreshCount : Nat
  headerCsrfSource : String
deriving DecidableEq, Repr, Inhabited

structure ErrEntry where
  queue : String
  error : String
  pass : Nat
deriving DecidableEq, Repr, Inhabited

structure RunResults where
  totalProcessed : Nat
  passesUsed : Nat
  success : Bool
  errors : List ErrEntry
  remainingQueues : List String
  aborted : Bool
  abortReason : String
  stats : Stats
deriving DecidableEq, Repr, Inhabited

def initialResults : RunResults where
  totalProcessed := 0
  passesUsed := 0
  success := false
  errors := []
  remainingQueues := []
  aborted := false
  abortReason := ""
  stats := { initial403Count := 0, retrySuccessCount := 0, tokenRefreshCount := 0,
             headerCsrfSource := "unknown" }

def pushErr (res : RunResults) (q msg : String) (pass : Nat) : RunResults :=
  { res with errors := res.errors ++ [{ queue := q, error := msg, pass }] }

def abortWith (res : RunResults) (reason : String) : RunResults :=
  { res with aborted := true, abortReason := reason }

/-! ### Environment and trace -/

structure FetchOutcome where
  doc : Doc
  htmlText : String
  status : Nat
  xCsrfToken : Option String
deriving DecidableEq, Repr, Inhabited

inductive FetchBehavior
  | ret (f : FetchOutcome)
  | thrown (msg : String)
deriving Repr, Inhabited

inductive SubmitBehavior
  | ret (r : SubmitOutcome)
  | thrown (msg : String)
deriving Repr, Inhabited

/-- `fetchQueuesPageDocument`'s login detection over a fetched page. -/
def fetchLoginPage (f : FetchOutcome) : Bool :=
  looksLikeLoginPageFromDoc f.doc || looksLikeLoginPageFromText f.htmlText

structure Env where
  pageOrigin : String
  /-- the live page document at each successive live read. -/
  lives : Nat → Doc
  /-- the outcome of each successive `fetchQueuesPageDocument` call. -/
  fetches : Nat → FetchBehavior
  /-- the outcome of each successive `submitQueueAction` call. -/
  submits : Nat → SubmitBehavior

inductive FetchLabel
  | passFetch (n : Nat) | preflight | tokenRefresh | finalCheck
deriving DecidableEq, Repr

inductive FetchRes
  | okRes | loginRes | errRes
deriving DecidableEq, Repr

/-- What the controller observes of a submission outcome (the classification
enters only through the `loginish` disjunction `loginPage || diagKind =
LOGIN` that the source tests). -/
structure SubmitObs where
  ok : Bool
  status : Nat
  is403 : Bool
  loginish : Bool
deriving DecidableEq, Repr

def obsOf (r : SubmitOutcome) : SubmitObs :=
  { ok := r.ok, status := r.status, is403 := r.is403
    loginish := r.loginPage || r.diagKind == .LOGIN }

inductive Event
  | fetchEv (label : FetchLabel) (pass : Nat) (res : FetchRes)
  | submitEv (key : String) (pass : Nat) (retry : Bool) (obs : SubmitObs)
  | submitThrowEv (key : String) (pass : Nat) (retry : Bool) (msg : String)
deriving DecidableEq, Repr

structure Counters where
  live : Nat
  fetch : Nat
  submit : Nat
deriving DecidableEq, Repr, Inhabited

/-! ### The per-pass inner loop -/

structure InnerSt where
  actionable : List Candidate
  i : Nat
  succeeded : List String
  tokenRefreshed : Bool
  ctx : CsrfContext
  res : RunResults
  cnt : Counters
deriving Repr

structure InnerOut where
  st : InnerSt
  events : List Event
deriving Repr

/-! State-update helpers.  Each names one mutation the source performs on
the controller state; keeping them as definitions (rather than inline
record updates) keeps proof goals compact. -/

def bumpLive (c : Counters) : Counters := { c with live := c.live + 1 }

def bumpFetch (c : Counters) : Counters := { c with fetch := c.fetch + 1 }

def bumpSubmit (c : Counters) : Counters := { c with submit := c.submit + 1 }

/-- `results.stats.initial403Count++`. -/
def count403 (r : RunResults) : RunResults :=
  { r with stats := { r.stats with initial403Count := r.stats.initial403Count + 1 } }

/-- `results.totalProcessed++`. -/
def countProcessed (r : RunResults) : RunResults :=
  { r with totalProcessed := r.totalProcessed + 1 }

/-- `results.totalProcessed++; results.stats.retrySuccessCount++`. -/
def countRetrySuccess (r : RunResults) : RunResults :=
  { r with totalProcessed := r.totalProcessed + 1
           stats := { r.stats with retrySuccessCount := r.stats.retrySuccessCount + 1 } }

/-- `results.stats.tokenRefreshCount++` plus the header-source update. -/
def applyRefreshStats (r : RunResults) (src : String) : RunResults :=
  { r with stats := { r.stats with tokenRefreshCount := r.stats.tokenRefreshCount + 1
                                   headerCsrfSource := src } }

/-- `results.stats.headerCsrfSource = src`. -/
def setHeaderSource (r : RunResults) (src : String) : RunResults :=
  { r with stats := { r.stats with headerCsrfSource := src } }

/-- Move to the next queue (`i++`), with updated bookkeeping. -/
def advance (st : InnerSt) (succ : List String) (flag : Bool) (ctx : CsrfContext)
    (res : RunResults) (cnt : Counters) : InnerSt :=
  { st with i := st.i + 1
            succeeded := succ
            tokenRefreshed := flag
            ctx := ctx
            res := res
            cnt := cnt }

/-- Restart the loop over a rebuilt actionable list (`i = -1` in the
source, advanced to 0 by the loop increment). -/
def restartWith (st : InnerSt) (act : List Candidate) (succ : List String) (flag : Bool)
    (ctx : CsrfContext) (res : RunResults) (cnt : Counters) : InnerSt :=
  { st with actionable := act
            i := 0
            succeeded := succ
            tokenRefreshed := flag
            ctx := ctx
            res := res
            cnt := cnt }

/-- State at a `break` out of the loop. -/
def haltSt (st : InnerSt) (flag : Bool) (ctx : CsrfContext) (res : RunResults)
    (cnt : Counters) : InnerSt :=
  { st with tokenRefreshed := flag, ctx := ctx, res := res, cnt := cnt }

/-- The actionable list rebuilt from a document, minus the queues already
confirmed successful in this pass. -/
def rebuildActionable (po : String) (d : Doc) (at_ : String) (succ : List String) :
    List Candidate :=
  (getActionableQueues po d at_).filter fun q => !(succ.contains q.actionPathKey)

/-- One iteration's decision: the loop is done (`i` past the end), performs
one iteration and continues, or halts (a `break` on session loss). -/
inductive InnerDec
  | done
  | step (evs : List Event) (st' : InnerSt)
  | halt (evs : List Event) (st' : InnerSt)
deriving Repr

/-- Retry handling after a successful (non-login) token-refresh fetch
(source lines 1302-1346): update the header-token context and stats, re-key
the triggering queue\'s body token from the fresh document, retry that one
queue, then rebuild the actionable list from the fresh document and restart
the loop (or abort when the retry hits a login page). -/
def handleRetry (env : Env) (actionType : String) (pass : Nat) (st : InnerSt)
    (queueInfo : Candidate) (ev : Event) (res1 : RunResults) (f : FetchOutcome)
    (cnt2 : Counters) : InnerDec :=
  let fev := Event.fetchEv .tokenRefresh pass .okRes
  let upd := getHeaderCsrfTokenExtended f.doc (some { xCsrfToken := f.xCsrfToken })
  let ctx1 : CsrfContext := { headerToken := upd.1, tokenSource := upd.2 }
  let res2 := applyRefreshStats res1 upd.2
  let fresh := mapGet (buildQueueTokenMap env.pageOrigin f.doc actionType)
    queueInfo.actionPathKey
  let qi := match fresh with
    | some fr => { queueInfo with formToken := fr.formToken }
    | none => queueInfo
  let rb := env.submits cnt2.submit
  let cnt3 := bumpSubmit cnt2
  match rb with
  | .thrown m2 =>
    .step [ev, fev, Event.submitThrowEv qi.actionPathKey pass true m2]
      (advance st st.succeeded true ctx1
        (pushErr res2 queueInfo.queueName ("403 + refresh failed: " ++ m2) pass) cnt3)
  | .ret rr =>
    let rev := Event.submitEv qi.actionPathKey pass true (obsOf rr)
    if rr.ok then
      let succ1 := queueInfo.actionPathKey :: st.succeeded
      .step [ev, fev, rev]
        (restartWith st (rebuildActionable env.pageOrigin f.doc actionType succ1)
          succ1 true ctx1 (countRetrySuccess res2) cnt3)
    else if rr.is403 && (rr.loginPage || rr.diagKind == .LOGIN) then
      .halt [ev, fev, rev]
        (haltSt st true ctx1
          (abortWith res2
            "Session expired / not authorized (login page detected after retry)")
          cnt3)
    else
      .step [ev, fev, rev]
        (restartWith st (rebuildActionable env.pageOrigin f.doc actionType st.succeeded)
          st.succeeded true ctx1
          (pushErr res2 queueInfo.queueName
            ("HTTP " ++ toString rr.status ++ " after token refresh (likely RBAC/permission)")
            pass)
          cnt3)

/-- First-403-of-the-pass token refresh (source lines 1288-1355): one fresh
fetch; a thrown fetch marks the pass refreshed and records the error; a
login page aborts; otherwise retry via `handleRetry`. -/
def handleRefresh (env : Env) (actionType : String) (pass : Nat) (st : InnerSt)
    (queueInfo : Candidate) (ev : Event) (res1 : RunResults) (cnt1 : Counters) : InnerDec :=
  let fb := env.fetches cnt1.fetch
  let cnt2 := bumpFetch cnt1
  match fb with
  | .thrown m =>
    .step [ev, Event.fetchEv .tokenRefresh pass .errRes]
      (advance st st.succeeded true st.ctx
        (pushErr res1 queueInfo.queueName ("403 + refresh failed: " ++ m) pass) cnt2)
  | .ret f =>
    if fetchLoginPage f then
      .halt [ev, Event.fetchEv .tokenRefresh pass .loginRes]
        (haltSt st st.tokenRefreshed st.ctx
          (abortWith res1
            "Session expired / not authorized (login page detected on refresh)")
          cnt2)
    else handleRetry env actionType pass st queueInfo ev res1 f cnt2

/-- Forbidden-response handling (source lines 1276-1360): count it, abort on
the login signal, refresh-and-retry on the first 403 of the pass, defer the
rest to the next pass. -/
def handle403 (env : Env) (actionType : String) (pass : Nat) (st : InnerSt)
    (queueInfo : Candidate) (ev : Event) (r : SubmitOutcome) (cnt1 : Counters) : InnerDec :=
  let res1 := count403 st.res
  if r.loginPage || r.diagKind == .LOGIN then
    .halt [ev] (haltSt st st.tokenRefreshed st.ctx
      (abortWith res1 "Session expired / not authorized (login page detected on POST)")
      cnt1)
  else if !st.tokenRefreshed then
    handleRefresh env actionType pass st queueInfo ev res1 cnt1
  else
    .step [ev] (advance st st.succeeded st.tokenRefreshed st.ctx res1 cnt1)

/-- Success handling (source lines 1260-1275): record it; when the executor
handed back a fresh document, opportunistically re-derive the header token
and the remaining actionable set and restart the loop. -/
def handleOk (env : Env) (actionType : String) (_pass : Nat) (st : InnerSt)
    (queueInfo : Candidate) (ev : Event) (r : SubmitOutcome) (cnt1 : Counters) : InnerDec :=
  let succ1 := queueInfo.actionPathKey :: st.succeeded
  match r.freshDoc with
  | some fd =>
    let upd := getHeaderCsrfTokenExtended fd none
    let changed := upd.1 != st.ctx.headerToken
    let ctx1 := if changed then
        { headerToken := upd.1, tokenSource := upd.2 } else st.ctx
    let res2 := if changed then
        setHeaderSource (countProcessed st.res) upd.2
      else countProcessed st.res
    .step [ev] (restartWith st (rebuildActionable env.pageOrigin fd actionType succ1)
      succ1 st.tokenRefreshed ctx1 res2 cnt1)
  | none =>
    .step [ev] (advance st succ1 st.tokenRefreshed st.ctx (countProcessed st.res) cnt1)

/-- Dispatch on a returned submission outcome. -/
def handleOutcome (env : Env) (actionType : String) (pass : Nat) (st : InnerSt)
    (queueInfo : Candidate) (r : SubmitOutcome) (cnt1 : Counters) : InnerDec :=
  let ev := Event.submitEv queueInfo.actionPathKey pass false (obsOf r)
  if r.ok then handleOk env actionType pass st queueInfo ev r cnt1
  else if r.is403 then handle403 env actionType pass st queueInfo ev r cnt1
  else
    .step [ev] (advance st st.succeeded st.tokenRefreshed st.ctx
      (pushErr st.res queueInfo.queueName ("HTTP " ++ toString r.status) pass) cnt1)

/-- Is this iteration one that performs the periodic live-DOM recheck? -/
def recheckDue (st : InnerSt) : Bool :=
  ENABLE_LIVE_DOM_RECHECK && decide (0 < st.i) &&
    st.i % LIVE_DOM_RECHECK_INTERVAL == 0

/-- Does the live-DOM recheck fire and report the queue as no longer
actionable (cheap skip)? -/
def recheckSkip (env : Env) (actionType : String) (st : InnerSt)
    (queueInfo : Candidate) : Bool :=
  recheckDue st &&
    !((getActionableQueues env.pageOrigin (env.lives st.cnt.live) actionType).any
      fun q => q.actionPathKey == queueInfo.actionPathKey)

/-- The counters after the optional live read of the recheck. -/
def recheckCnt (st : InnerSt) : Counters :=
  if recheckDue st then bumpLive st.cnt else st.cnt

/-- One iteration of the inner queue loop of one pass (source lines
1238-1384): the optional live-DOM recheck, the submission, and the
dispatch on its outcome. -/
def innerStep (env : Env) (actionType : String) (pass : Nat) (st : InnerSt) : InnerDec :=
  if decide (st.i < st.actionable.length) then
    let queueInfo := st.actionable.getD st.i default
    let cntA := recheckCnt st
    if recheckSkip env actionType st queueInfo then
      .step [] (advance st st.succeeded st.tokenRefreshed st.ctx st.res cntA)
    else
      let b := env.submits cntA.submit
      let cnt1 := bumpSubmit cntA
      match b with
      | .thrown msg =>
        .step [Event.submitThrowEv queueInfo.actionPathKey pass false msg]
          (advance st st.succeeded st.tokenRefreshed st.ctx
            (pushErr st.res queueInfo.queueName msg pass) cnt1)
      | .ret r => handleOutcome env actionType pass st queueInfo r cnt1
  else .done

/-- The inner queue loop: iterate `innerStep` until it is done or halts.
Fuel only makes the recursion structural; running out ends the pass early,
exactly as the loop exit does, so the safety theorems hold for every fuel
value. -/
def innerLoop (env : Env) (actionType : String) (pass : Nat) :
    Nat → InnerSt → InnerOut
  | 0, st => { st, events := [] }
  | fuel + 1, st =>
    match innerStep env actionType pass st with
    | .done => { st, events := [] }
    | .halt evs st' => { st := st', events := evs }
    | .step evs st' =>
      let out := innerLoop env actionType pass fuel st'
      { st := out.st, events := evs ++ out.events }

/-! ### The pass loop and the run -/

structure PassOut where
  res : RunResults
  cnt : Counters
  events : List Event
  enums : List (List Candidate)
deriving Repr

/-- Result of the pass preparation: either the run aborts on a detected
login page, or the pass is ready to enumerate and submit. -/
inductive PrepRes
  | halted (res : RunResults) (cnt : Counters) (evs : List Event)
  | ready (res : RunResults) (cnt : Counters) (evs : List Event) (doc : Doc) (ctx : CsrfContext)
deriving Repr

/-- The pass-1 preflight (source lines 1188-1211): when the header token is
missing on pass 1, one extra fetch before any POSTs; a login page aborts;
a thrown fetch is logged and ignored. -/
def preflightStep (env : Env) (pass : Nat) (res2 : RunResults) (cnt1 : Counters)
    (evs1 : List Event) (doc1 : Doc) (hd : Option String × String) : PrepRes :=
  if jsFalsy hd.1 && pass == 1 then
    let cnt2 := bumpFetch cnt1
    match env.fetches cnt1.fetch with
    | .thrown _ =>
      .ready res2 cnt2 (evs1 ++ [Event.fetchEv .preflight pass .errRes]) doc1
        { headerToken := hd.1, tokenSource := hd.2 }
    | .ret f =>
      if fetchLoginPage f then
        .halted (abortWith res2 "Session expired / not authorized (login page detected)")
          cnt2 (evs1 ++ [Event.fetchEv .preflight pass .loginRes])
      else
        let upd := getHeaderCsrfTokenExtended f.doc (some { xCsrfToken := f.xCsrfToken })
        .ready (setHeaderSource res2 upd.2) cnt2
          (evs1 ++ [Event.fetchEv .preflight pass .okRes]) f.doc
          { headerToken := upd.1, tokenSource := upd.2 }
  else .ready res2 cnt1 evs1 doc1 { headerToken := hd.1, tokenSource := hd.2 }

/-- Pass preparation (source lines 1151-1216): pass 1 uses the live DOM;
later passes fetch fresh state (falling back to the live DOM when the fetch
throws, aborting on a login page); then the header-token context is
resolved and the pass-1 preflight may run. -/
def preparePass (env : Env) (pass : Nat) (res0 : RunResults) (cnt0 : Counters) : PrepRes :=
  if pass == 1 then
    let doc := env.lives cnt0.live
    let cnt1 := bumpLive cnt0
    let hd := getHeaderCsrfTokenExtended doc none
    preflightStep env pass (setHeaderSource res0 hd.2) cnt1 [] doc hd
  else
    let cnt1 := bumpFetch cnt0
    match env.fetches cnt0.fetch with
    | .thrown _ =>
      let doc := env.lives cnt1.live
      let cnt2 := bumpLive cnt1
      let hd := getHeaderCsrfTokenExtended doc none
      preflightStep env pass (setHeaderSource res0 hd.2) cnt2
        [Event.fetchEv (.passFetch pass) pass .errRes] doc hd
    | .ret f =>
      if fetchLoginPage f then
        .halted (abortWith res0 "Session expired / not authorized (login page detected)")
          cnt1 [Event.fetchEv (.passFetch pass) pass .loginRes]
      else
        let hd := getHeaderCsrfTokenExtended f.doc (some { xCsrfToken := f.xCsrfToken })
        preflightStep env pass (setHeaderSource res0 hd.2) cnt1
          [Event.fetchEv (.passFetch pass) pass .okRes] f.doc hd

/-- The pass loop of `convergeQueues` (source lines 1148-1395), counting
down the remaining passes. -/
def passLoop (env : Env) (actionType : String) (innerFuel : Nat) :
    Nat → Nat → RunResults → Counters → PassOut
  | 0, _, res, cnt => { res, cnt, events := [], enums := [] }
  | remaining + 1, pass, res0, cnt0 =>
    match preparePass env pass { res0 with passesUsed := pass } cnt0 with
    | .halted res cnt evs => { res, cnt, events := evs, enums := [] }
    | .ready res3 cnt3 evs3 doc3 ctx3 =>
      let actionable := getActionableQueues env.pageOrigin doc3 actionType
      if actionable.isEmpty then
        { res := { res3 with success := true, remainingQueues := [] }
          cnt := cnt3, events := evs3, enums := [actionable] }
      else
        let inner := innerLoop env actionType pass innerFuel
          { actionable, i := 0, succeeded := [], tokenRefreshed := false,
            ctx := ctx3, res := res3, cnt := cnt3 }
        if inner.st.res.aborted then
          { res := inner.st.res, cnt := inner.st.cnt,
            events := evs3 ++ inner.events, enums := [actionable] }
        else
          let next := passLoop env actionType innerFuel remaining (pass + 1)
            inner.st.res inner.st.cnt
          { res := next.res, cnt := next.cnt,
            events := evs3 ++ inner.events ++ next.events,
            enums := actionable :: next.enums }

structure RunOut where
  results : RunResults
  trace : List Event
  passEnums : List (List Candidate)
  finalEnum : Option (List Candidate)
deriving Repr

/-- `convergeQueues` from the source: the pass loop followed by the final
fresh-fetch check performed whenever the pass loop did not declare
success. -/
def convergeQueues (env : Env) (actionType : String) (innerFuel : Nat) : RunOut :=
  let p := passLoop env actionType innerFuel MAX_PASSES 1 initialResults
    { live := 0, fetch := 0, submit := 0 }
  if p.res.success then
    { results := p.res, trace := p.events, passEnums := p.enums, finalEnum := none }
  else
    match env.fetches p.cnt.fetch with
    | .thrown _ =>
      { results := p.res
        trace := p.events ++ [Event.fetchEv .finalCheck p.res.passesUsed .errRes]
        passEnums := p.enums, finalEnum := none }
    | .ret f =>
      let remaining := getActionableQueues env.pageOrigin f.doc actionType
      let res1 := { p.res with remainingQueues := remaining.map (·.queueName) }
      let res2 := if remaining.isEmpty then { res1 with success := true } else res1
      { results := res2
        trace := p.events ++ [Event.fetchEv .finalCheck p.res.passesUsed .okRes]
        passEnums := p.enums, finalEnum := some remaining }

/-! ## Helper lemmas about enumeration -/

/-- Every candidate of the fallback scan passed its delete filter on the
name. -/
theorem findSubmitFallback_name_no_delete {f : Form} {at_ : String} {c : Control}
    (h : findSubmitFallback f at_ = some c) :
    strContains (lowerStr (trimStr (c.name.getD ""))) "delete" = false := by
  unfold findSubmitFallback at h
  have hp := List.find?_some h
  by_cases hd : strContains (lowerStr (trimStr (c.name.getD ""))) "delete" = true
  · rw [if_pos] at hp
    · exact absurd hp (by simp)
    · simp [hd]
  · simpa using hd

/-- A control returned by `findSubmitButton` never has a delete-containing
name (case-insensitively): the primary path only returns controls named
exactly by an allow-listed action type, and the fallback path filters
delete-named controls out. -/
theorem findSubmitButton_name_no_delete {f : Form} {at_ : String} {c : Control}
    (h : findSubmitButton f at_ = some c) :
    strContains (lowerStr (trimStr (c.name.getD ""))) "delete" = false := by
  unfold findSubmitButton at h
  split at h
  · exact absurd h (by simp)
  · rename_i hallow
    split at h
    · rename_i byName hfind
      split at h
      · have hp := List.find?_some hfind
        unfold matchesByName at hp
        have hname : byName.name = some at_ := by
          have := (Bool.and_eq_true _ _).mp hp |>.2
          simpa using this
        have hat : at_ ∈ ALLOWED_ACTIONS := by
          simpa using hallow
        cases h
        rw [hname]
        simp only [ALLOWED_ACTIONS, List.mem_cons, List.mem_singleton] at hat
        rcases hat with rfl | hat
        · decide
        · rcases hat with rfl | h0
          · decide
          · simp at h0
      · exact findSubmitFallback_name_no_delete h
    · exact findSubmitFallback_name_no_delete h

/-- Inversion of the per-form enumeration step: a produced candidate comes
with the control `findSubmitButton` selected in that same form, carries that
form's own authenticity token and normalized action key, and replicates the
control's name/value pair (value defaulting to the name). -/
theorem candidateOfForm_spec {po at_ : String} {f : Form} {c : Candidate}
    (h : candidateOfForm po at_ f = some c) :
    ∃ ctrl, findSubmitButton f at_ = some ctrl ∧
      ctrl.name = some c.submitName ∧
      getAuthenticityToken f = some c.formToken ∧
      c.actionPathKey = normalizeActionPathKey po f.action ∧
      c.action = f.action ∧
      c.submitValue = jsOrElse ctrl.value c.submitName ∧
      lowerStr c.submitName ≠ "delete" := by
  simp only [candidateOfForm] at h
  split at h
  · exact absurd h (by simp)
  · rename_i ctrl hctrl
    split at h
    · exact absurd h (by simp)
    · rename_i htok
      split at h
      · exact absurd h (by simp)
      · rename_i hname
        split at h
        · exact absurd h (by simp)
        · rename_i hdel
          cases h
          refine ⟨ctrl, hctrl, ?_, ?_, rfl, rfl, rfl, ?_⟩
          · cases hn : ctrl.name with
            | none => rw [hn] at hname; simp [jsFalsy] at hname
            | some n => simp
          · cases ht : getAuthenticityToken f with
            | none => rw [ht] at htok; simp [jsFalsy] at htok
            | some t => simp
          · simpa using hdel

/-- Membership inversion for `getActionableQueues`. -/
theorem mem_getActionableQueues {po : String} {doc : Doc} {at_ : String} {c : Candidate}
    (h : c ∈ getActionableQueues po doc at_) :
    ∃ f, f ∈ doc.forms ∧ strContains f.action "/sidekiq/queues/" = true ∧
      candidateOfForm po at_ f = some c := by
  unfold getActionableQueues at h
  split at h
  · simp at h
  · rcases List.mem_filterMap.mp h with ⟨f, hf, hc⟩
    rcases List.mem_filter.mp hf with ⟨hf1, hf2⟩
    exact ⟨f, hf1, hf2, hc⟩

/-- `mapGet` (the JS `Map.get` over insertion order) returns an element of
the list whose key matches. -/
theorem mapGet_spec {l : List Candidate} {key : String} {q : Candidate}
    (h : mapGet l key = some q) : q ∈ l ∧ q.actionPathKey = key := by
  unfold mapGet at h
  suffices H : ∀ (l : List Candidate) (acc : Option Candidate),
      l.foldl (fun acc q => if q.actionPathKey == key then some q else acc) acc = some q →
      (q ∈ l ∧ q.actionPathKey = key) ∨ acc = some q by
    rcases H l none h with h' | h'
    · exact h'
    · simp at h'
  intro l
  induction l with
  | nil => intro acc h'; simp at h'; simp [h']
  | cons x xs ih =>
    intro acc h'
    simp only [List.foldl_cons] at h'
    rcases ih _ h' with ⟨hm, hk⟩ | hacc
    · exact Or.inl ⟨List.mem_cons_of_mem _ hm, hk⟩
    · by_cases hx : x.actionPathKey == key
      · rw [if_pos hx] at hacc
        cases hacc
        exact Or.inl ⟨List.mem_cons_self _ _, by simpa using hx⟩
      · rw [if_neg hx] at hacc
        exact Or.inr hacc

/-! ## Concrete fixtures used by counterexamples and witnesses -/

def ctlPause : Control :=
  { isButton := false, typeAttr := some "submit", name := some "pause",
    value := some "Pause", text := "" }

def ctlPauseNoValue : Control :=
  { isButton := false, typeAttr := some "submit", name := some "pause",
    value := none, text := "" }

def hiddenToken (v : String) : Control :=
  { isButton := false, typeAttr := some "hidden", name := some "authenticity_token",
    value := some v, text := "" }

def headerTokFix : String := "HeaderTokenValue0123456789abcdef"

def formAlpha : Form :=
  { action := "/sidekiq/queues/alpha"
    controls := [hiddenToken "tokenAAAAAAAAAAAAAAAAAAAA", ctlPause] }

def formBeta : Form :=
  { action := "/sidekiq/queues/beta"
    controls := [hiddenToken "tokenBBBBBBBBBBBBBBBBBBBB", ctlPause] }

def formGamma : Form :=
  { action := "/sidekiq/queues/gamma"
    controls := [hiddenToken "tokenCCCCCCCCCCCCCCCCCCCC", ctlPauseNoValue] }

/-- Two queue forms, each carrying its own distinguishable body token, plus
a page-global meta header token. -/
def docPair : Doc :=
  { blankDoc with hasQueuesTable := true
                  forms := [formAlpha, formBeta]
                  metaCsrfContent := some headerTokFix }

def docGamma : Doc :=
  { blankDoc with hasQueuesTable := true
                  forms := [formGamma]
                  metaCsrfContent := some headerTokFix }

/-- A queue table that no longer lists any actionable queue. -/
def docDone : Doc :=
  { blankDoc with hasQueuesTable := true, metaCsrfContent := some headerTokFix }

/-! ## Claim C8 -/

/-- C8: for every target URL whose origin differs from the page origin,
`doQueuePost` raises the hard safety error before issuing any request, for
all inputs. -/
theorem claim8_cross_origin_rejected (pageOrigin : String) (url : UrlParts)
    (formToken submitName submitValue : String) (mode : ReqMode) (net : NetBehavior)
    (h : url.origin ≠ pageOrigin) :
    doQueuePost pageOrigin url formToken submitName submitValue mode net =
      { result := .error "SAFETY: Refusing to POST cross-origin request"
        requestSent := false } := by
  unfold doQueuePost
  rw [if_pos (by simpa using h)]

/-- Witness for C8 at a concrete cross-origin target. -/
theorem claim8_witness :
    doQueuePost "https://app.example"
      { origin := "https://evil.example", pathname := "/sidekiq/queues/alpha", search := "" }
      "tok" "pause" "Pause" ReqMode.xhr (NetBehavior.fail "never reached") =
    { result := .error "SAFETY: Refusing to POST cross-origin request"
      requestSent := false } :=
  claim8_cross_origin_rejected _ _ _ _ _ _ _ (by decide)

/-! ## Claim C10 -/

/-- C10: a matched action control with a name but no value attribute still
yields a candidate, with `submitValue` defaulting to the name, so the POST
body carries the pair `name=name`. -/
theorem claim10_missing_value_defaults_to_name
    (po : String) (doc : Doc) (at_ : String) (f : Form) (ctrl : Control) (n tok : String)
    (hdoc : doc.hasQueuesTable = true) (hf : f ∈ doc.forms)
    (hact : strContains f.action "/sidekiq/queues/" = true)
    (hbtn : findSubmitButton f at_ = some ctrl)
    (hname : ctrl.name = some n) (hne : n.isEmpty = false)
    (hdel : (lowerStr n == "delete") = false)
    (hval : ctrl.value = none)
    (htok : getAuthenticityToken f = some tok) (htokne : tok.isEmpty = false) :
    ∃ c ∈ getActionableQueues po doc at_,
      c.submitName = n ∧ c.submitValue = n ∧
      buildPostBody c.formToken c.submitName c.submitValue =
        [("authenticity_token", tok), (n, n)] := by
  have hc : candidateOfForm po at_ f =
      some { queueName := getQueueNameFromAction f.action, action := f.action
             actionPathKey := normalizeActionPathKey po f.action, formToken := tok
             submitName := n, submitValue := n, actionType := at_ } := by
    simp [candidateOfForm, hbtn, hname, hval, htok, jsFalsy, hne, htokne, hdel, jsOrElse]
  refine ⟨{ queueName := getQueueNameFromAction f.action, action := f.action
            actionPathKey := normalizeActionPathKey po f.action, formToken := tok
            submitName := n, submitValue := n, actionType := at_ }, ?_, rfl, rfl, rfl⟩
  unfold getActionableQueues
  rw [hdoc]
  simp only [Bool.not_true, Bool.false_eq_true, if_false]
  exact List.mem_filterMap.mpr ⟨f, List.mem_filter.mpr ⟨hf, hact⟩, hc⟩

/-- Witness for C10: a concrete form whose pause control has no value
attribute. -/
theorem claim10_witness :
    ∃ c ∈ getActionableQueues "https://app.example" docGamma "pause",
      c.submitName = "pause" ∧ c.submitValue = "pause" ∧
      buildPostBody c.formToken c.submitName c.submitValue =
        [("authenticity_token", "tokenCCCCCCCCCCCCCCCCCCCC"), ("pause", "pause")] :=
  claim10_missing_value_defaults_to_name "https://app.example" docGamma "pause"
    formGamma ctlPauseNoValue "pause" "tokenCCCCCCCCCCCCCCCCCCCC"
    (by decide) (by decide) (by decide) (by decide) (by decide) (by decide)
    (by decide) (by decide) (by decide) (by decide)

/-! ## Claim C7 -/

/-- Shared helper: every enumerated candidate carries the authenticity token
of the very form it was built from. -/
theorem actionable_token_from_own_form {po : String} {doc : Doc} {at_ : String}
    {c : Candidate} (hc : c ∈ getActionableQueues po doc at_) :
    ∃ f, f ∈ doc.forms ∧ getAuthenticityToken f = some c.formToken ∧
      c.action = f.action ∧ c.actionPathKey = normalizeActionPathKey po f.action := by
  rcases mem_getActionableQueues hc with ⟨f, hf, _, hcf⟩
  rcases candidateOfForm_spec hcf with ⟨ctrl, _, _, htok, hkey, hacteq, _, _⟩
  exact ⟨f, hf, htok, hacteq, hkey⟩

/-- C7: a candidate's `formToken` is the authenticity token of that queue's
own form (the form its `action` and `actionPathKey` come from), and the
token-refresh lookup (`buildQueueTokenMap` + `Map.get` keyed by
`actionPathKey`) preserves this: the fresh candidate it returns has the
requested key and its token again comes from the form with that key. -/
theorem claim7_token_isolation :
    (∀ (po : String) (doc : Doc) (at_ : String) (c : Candidate),
       c ∈ getActionableQueues po doc at_ →
       ∃ f, f ∈ doc.forms ∧ getAuthenticityToken f = some c.formToken ∧
         c.action = f.action ∧ c.actionPathKey = normalizeActionPathKey po f.action) ∧
    (∀ (po : String) (doc : Doc) (at_ key : String) (q : Candidate),
       mapGet (buildQueueTokenMap po doc at_) key = some q →
       q.actionPathKey = key ∧
       ∃ f, f ∈ doc.forms ∧ getAuthenticityToken f = some q.formToken ∧
         normalizeActionPathKey po f.action = key) := by
  refine ⟨fun po doc at_ c hc => actionable_token_from_own_form hc, ?_⟩
  intro po doc at_ key q hq
  rcases mapGet_spec hq with ⟨hmem, hkey⟩
  rcases actionable_token_from_own_form (by simpa [buildQueueTokenMap] using hmem) with
    ⟨f, hf, htok, _, hkey2⟩
  exact ⟨hkey, f, hf, htok, by rw [← hkey2, hkey]⟩

/-- Witness for C7 on a document with two forms carrying distinct tokens:
the first candidate's token is resolved from a form of the document. -/
theorem claim7_witness :
    ∃ f, f ∈ docPair.forms ∧
      getAuthenticityToken f = some "tokenAAAAAAAAAAAAAAAAAAAA" ∧
      "/sidekiq/queues/alpha" = f.action ∧
      "/sidekiq/queues/alpha" = normalizeActionPathKey "https://app.example" f.action := by
  have h := claim7_token_isolation.1 "https://app.example" docPair "pause"
    { queueName := "alpha", action := "/sidekiq/queues/alpha"
      actionPathKey := "/sidekiq/queues/alpha", formToken := "tokenAAAAAAAAAAAAAAAAAAAA"
      submitName := "pause", submitValue := "Pause", actionType := "pause" }
    (by decide)
  simpa using h

/-! ## Claim C1 -/

/-- A control whose name is the matched action type but whose value is
delete-worded: the primary name-based path of `findSubmitButton` checks only
the name for "delete". -/
def ctlPauseDeleteValue : Control :=
  { isButton := false, typeAttr := some "submit", name := some "pause",
    value := some "Delete queue", text := "" }

def formPauseDeleteValue : Form :=
  { action := "/sidekiq/queues/alpha", controls := [ctlPauseDeleteValue] }

/-- Counterexample to C1 as stated: `findSubmitButton` returns (via its
primary name-based path) a control whose value case-insensitively contains
"delete". -/
theorem claim1_counterexample :
    findSubmitButton formPauseDeleteValue "pause" = some ctlPauseDeleteValue ∧
    strContains (lowerStr (trimStr (ctlPauseDeleteValue.value.getD ""))) "delete" = true := by
  decide

/-- Shared helper: every enumerated candidate's control name is free of
"delete" (case-insensitively), because it is the name of the control
`findSubmitButton` selected. -/
theorem actionable_submitName_no_delete {po : String} {doc : Doc} {at_ : String}
    {c : Candidate} (hc : c ∈ getActionableQueues po doc at_) :
    strContains (lowerStr (trimStr c.submitName)) "delete" = false := by
  rcases mem_getActionableQueues hc with ⟨f, _, _, hcf⟩
  rcases candidateOfForm_spec hcf with ⟨ctrl, hbtn, hname, _, _, _, _, _⟩
  have := findSubmitButton_name_no_delete hbtn
  rwa [hname] at this

/-- C1 (amended): the control NAME never contains "delete": `findSubmitButton`
never returns a control whose name case-insensitively contains "delete" (its
fallback path additionally rejects delete-worded values and texts, but the
primary name-based path does not); `getActionableQueues` never emits a
candidate whose control name contains "delete"; `submitQueueAction` throws,
dispatching nothing, on a delete-named candidate; and no field name of any
generated POST body contains "delete". -/
theorem claim1_amended :
    (∀ (f : Form) (at_ : String) (c : Control), findSubmitButton f at_ = some c →
       strContains (lowerStr (trimStr (c.name.getD ""))) "delete" = false) ∧
    (∀ (po : String) (doc : Doc) (at_ : String) (c : Candidate),
       c ∈ getActionableQueues po doc at_ →
       strContains (lowerStr (trimStr c.submitName)) "delete" = false) ∧
    (∀ (po : String) (q : Candidate) (ctx : CsrfContext) (ov : Option String)
       (nenv : NativeEnv) (net : NetBehavior), lowerStr q.submitName = "delete" →
       (submitQueueAction po q ctx ov nenv net).nativeSubmitted = false ∧
       (submitQueueAction po q ctx ov nenv net).netPosted = false ∧
       ∃ m, (submitQueueAction po q ctx ov nenv net).result = Except.error m) ∧
    (∀ (po : String) (doc : Doc) (at_ : String) (c : Candidate) (p : String × String),
       c ∈ getActionableQueues po doc at_ →
       p ∈ buildPostBody c.formToken c.submitName c.submitValue →
       strContains (lowerStr (trimStr p.1)) "delete" = false) := by
  refine ⟨fun f at_ c h => findSubmitButton_name_no_delete h,
          fun po doc at_ c hc => actionable_submitName_no_delete hc, ?_, ?_⟩
  · intro po q ctx ov nenv net h
    cases hu : parseUrl q.action po with
    | none => simp [submitQueueAction, hu]
    | some url => simp [submitQueueAction, hu, h]
  · intro po doc at_ c p hc hp
    simp only [buildPostBody, List.mem_cons, List.mem_singleton, List.not_mem_nil,
      or_false] at hp
    rcases hp with rfl | rfl
    · exact (by decide : strContains (lowerStr (trimStr "authenticity_token")) "delete" = false)
    · exact actionable_submitName_no_delete hc

/-- Witness for C1 (amended) at concrete inputs: a normal pause control and
a delete-named candidate. -/
theorem claim1_witness :
    strContains (lowerStr (trimStr (ctlPause.name.getD ""))) "delete" = false ∧
    ((submitQueueAction "https://app.example"
        { queueName := "alpha", action := "/sidekiq/queues/alpha"
          actionPathKey := "/sidekiq/queues/alpha", formToken := "tok"
          submitName := "Delete", submitValue := "Delete", actionType := "pause" }
        { headerToken := none, tokenSource := "missing" } none
        { liveForms := [], submitThrows := false, loaded := true, frameDoc := none }
        (NetBehavior.fail "never")).nativeSubmitted = false ∧
     (submitQueueAction "https://app.example"
        { queueName := "alpha", action := "/sidekiq/queues/alpha"
          actionPathKey := "/sidekiq/queues/alpha", formToken := "tok"
          submitName := "Delete", submitValue := "Delete", actionType := "pause" }
        { headerToken := none, tokenSource := "missing" } none
        { liveForms := [], submitThrows := false, loaded := true, frameDoc := none }
        (NetBehavior.fail "never")).netPosted = false ∧
     ∃ m, (submitQueueAction "https://app.example"
        { queueName := "alpha", action := "/sidekiq/queues/alpha"
          actionPathKey := "/sidekiq/queues/alpha", formToken := "tok"
          submitName := "Delete", submitValue := "Delete", actionType := "pause" }
        { headerToken := none, tokenSource := "missing" } none
        { liveForms := [], submitThrows := false, loaded := true, frameDoc := none }
        (NetBehavior.fail "never")).result = Except.error m) :=
  ⟨claim1_amended.1 formAlpha "pause" ctlPause (by decide),
   claim1_amended.2.2.1 "https://app.example" _ _ none _ _ (by decide)⟩

/-! ## Claim C6 -/

/-- The success condition exactly as claim C6 words it: a safe SAME-ORIGIN
redirect, or a 2xx response that is not a rendered (HTML) login page, or -
in the body-replication/form mode - a 200 response whose body still contains
the queue table; and nothing else. -/
def claimedSuccessfulResponse (pageOrigin : String) (requestMode : ReqMode)
    (r : NetResponse) : Bool :=
  let sameOriginRedirect :=
    decide (300 ≤ r.status) && decide (r.status < 400) &&
      (match r.location with
       | some loc =>
         match parseUrl loc pageOrigin with
         | some u => u.origin == pageOrigin
         | none => false
       | none => false)
  let renderedLogin := strContains (r.contentType.getD "") "text/html" &&
    looksLikeLoginPageFromText r.bodyText
  let okTwoxx := decide (200 ≤ r.status) && decide (r.status < 300) && !renderedLogin
  let formOk := requestMode == ReqMode.form && r.status == 200 && r.bodyHasQueuesTable
  sameOriginRedirect || okTwoxx || formOk

/-- Did the call return an outcome classified successful? -/
def postOk (c : PostCall) : Bool :=
  match c.result with
  | .ok o => o.ok
  | .error _ => false

def urlSameOrigin : UrlParts :=
  { origin := "https://app.example", pathname := "/sidekiq/queues/alpha", search := "" }

/-- A 302 whose Location is cross-origin but whose path starts with
`/sidekiq/queues`: the source's `redirectIsSafe` accepts it. -/
def respCrossRedirect : NetResponse :=
  { isOpaqueRedirect := false, status := 302, contentType := none,
    location := some "https://evil.example/sidekiq/queues/alpha", bodyText := "",
    bodyHasQueuesTable := false }

/-- Counterexample to C6 as stated: the code classifies this cross-origin
redirect as successful although none of the claim's three conditions holds
(in particular it is not a same-origin redirect). -/
theorem claim6_counterexample :
    postOk (doQueuePost "https://app.example" urlSameOrigin "tok" "pause" "Pause"
      ReqMode.xhr (NetBehavior.resp respCrossRedirect)) = true ∧
    claimedSuccessfulResponse "https://app.example" ReqMode.xhr respCrossRedirect = false := by
  decide

/-- The amended C6 success condition: a response is successful iff its
status is exactly 302 and its Location resolves same-origin or to a path
starting with `/sidekiq/queues`; or it is a 2xx not detected as a rendered
login page (detection applies only to read HTML bodies, and an opaque
redirect body is never read); or, in form mode, it is a 200 whose read HTML
non-login body still contains the queue table. -/
def amendedSuccessfulResponse (pageOrigin : String) (requestMode : ReqMode)
    (r : NetResponse) : Bool :=
  let isHtml := strContains (r.contentType.getD "") "text/html"
  let bodyRead := !r.isOpaqueRedirect &&
    (isHtml || decide (400 ≤ r.status) || (decide (200 ≤ r.status) && decide (r.status < 300)))
  let login := bodyRead && isHtml && looksLikeLoginPageFromText r.bodyText
  let safeRedirect :=
    match r.location with
    | none => false
    | some loc =>
      match parseUrl loc pageOrigin with
      | none => false
      | some u => u.origin == pageOrigin || strStarts u.pathname "/sidekiq/queues"
  (r.status == 302 && safeRedirect) ||
    (decide (200 ≤ r.status) && decide (r.status < 300) && !login) ||
    (requestMode == ReqMode.form && r.status == 200 &&
      (bodyRead && isHtml && !login && r.bodyHasQueuesTable))

/-- C6 (amended): for every same-origin target and every response, the
outcome of the direct network path is classified successful exactly under
the amended condition. -/
theorem claim6_amended (pageOrigin : String) (url : UrlParts)
    (formToken submitName submitValue : String) (mode : ReqMode) (r : NetResponse)
    (h : url.origin = pageOrigin) :
    postOk (doQueuePost pageOrigin url formToken submitName submitValue mode
      (NetBehavior.resp r)) = amendedSuccessfulResponse pageOrigin mode r := by
  unfold postOk doQueuePost amendedSuccessfulResponse
  rw [if_neg (by simp [h])]

/-- Witness for C6 (amended) at a concrete same-origin input. -/
theorem claim6_witness :
    postOk (doQueuePost "https://app.example" urlSameOrigin "tok" "pause" "Pause"
      ReqMode.xhr (NetBehavior.resp respCrossRedirect)) =
    amendedSuccessfulResponse "https://app.example" ReqMode.xhr respCrossRedirect :=
  claim6_amended _ _ _ _ _ _ _ rfl

/-! ## Claim C3 -/

/-- A concrete enumerated candidate for queue `alpha`. -/
def candAlpha : Candidate :=
  { queueName := "alpha", action := "/sidekiq/queues/alpha"
    actionPathKey := "/sidekiq/queues/alpha", formToken := "tokenAAAAAAAAAAAAAAAAAAAA"
    submitName := "pause", submitValue := "Pause", actionType := "pause" }

/-- Native attempt that dispatches the live form but times out waiting for
the hidden frame. -/
def nenvTimeout : NativeEnv :=
  { liveForms := [formAlpha], submitThrows := false, loaded := false,
    frameDoc := some blankDoc }

/-- A same-origin 302 response. -/
def respSafeRedirect : NetResponse :=
  { isOpaqueRedirect := false, status := 302, contentType := none,
    location := some "/sidekiq/queues", bodyText := "", bodyHasQueuesTable := false }

/-- Counterexample to C3 as stated: when the native attempt times out, the
form HAS been submitted through the hidden frame, yet `submitQueueAction`
falls through and issues a direct network request for the same candidate -
a double submission. -/
theorem claim3_counterexample :
    (submitQueueAction "https://app.example" candAlpha
      { headerToken := some headerTokFix, tokenSource := "meta" } (some "pause")
      nenvTimeout (NetBehavior.resp respSafeRedirect)).nativeSubmitted = true ∧
    (submitQueueAction "https://app.example" candAlpha
      { headerToken := some headerTokFix, tokenSource := "meta" } (some "pause")
      nenvTimeout (NetBehavior.resp respSafeRedirect)).netPosted = true := by
  decide

/-- Helper: a dispatched native attempt whose frame load completed is always
conclusive - it reports a login page, success, or a forbidden outcome. -/
theorem submitViaNativeForm_loaded_conclusive {po : String} {nenv : NativeEnv}
    {q : Candidate} {at_ : String}
    (hsub : (submitViaNativeForm po nenv q at_).submitted = true)
    (hload : nenv.loaded = true) :
    (submitViaNativeForm po nenv q at_).loginPage = true ∨
    (submitViaNativeForm po nenv q at_).ok = true ∨
    (submitViaNativeForm po nenv q at_).forbidden = true := by
  cases hfind : findLiveFormForQueue po nenv.liveForms q.actionPathKey at_ with
  | none => simp [submitViaNativeForm, hfind, nativeAbort] at hsub
  | some pair =>
    obtain ⟨f, sb⟩ := pair
    cases sb with
    | none => simp [submitViaNativeForm, hfind, nativeAbort] at hsub
    | some ctrl =>
      by_cases hthrow : nenv.submitThrows = true
      · simp [submitViaNativeForm, hfind, hthrow, nativeAbort] at hsub
      · cases hdoc : nenv.frameDoc with
        | none => simp [submitViaNativeForm, hfind, hthrow, hdoc, hload]
        | some d =>
          by_cases hlogin : looksLikeLoginPageFromDoc d = true <;>
            by_cases htable : d.hasQueuesTable = true <;>
              simp [submitViaNativeForm, hfind, hthrow, hdoc, hload, hlogin, htable]

/-- C3 (amended): once the native attempt has been dispatched AND its frame
load completed within the timeout, `submitQueueAction` never issues a direct
network request for that candidate; the fallback happens only when the
native attempt was not dispatched (no live form, no submit control, or the
programmatic submission threw) or when the frame wait timed out. -/
theorem claim3_amended (po : String) (q : Candidate) (ctx : CsrfContext)
    (ov : Option String) (nenv : NativeEnv) (net : NetBehavior)
    (hload : nenv.loaded = true)
    (hsub : (submitQueueAction po q ctx ov nenv net).nativeSubmitted = true) :
    (submitQueueAction po q ctx ov nenv net).netPosted = false := by
  cases hu : parseUrl q.action po with
  | none => simp [submitQueueAction, hu] at hsub
  | some url =>
    by_cases hdel : (lowerStr q.submitName == "delete") = true
    · simp [submitQueueAction, hu, hdel] at hsub
    · by_cases heff : jsOrElse ov q.actionType ∈ NATIVE_FORM_ACTIONS
      · have hns : (submitViaNativeForm po nenv q (jsOrElse ov q.actionType)).submitted
            = true := by
          simp [submitQueueAction, hu, hdel, heff] at hsub
          split at hsub <;>
            first
            | simpa using hsub
            | (split at hsub <;> simpa using hsub)
        rcases submitViaNativeForm_loaded_conclusive hns hload with hc | hc | hc
        · simp [submitQueueAction, hu, hdel, heff, hc]
        · by_cases hl : (submitViaNativeForm po nenv q (jsOrElse ov q.actionType)).loginPage
              = true <;>
            simp [submitQueueAction, hu, hdel, heff, hl, hc]
        · by_cases hl : (submitViaNativeForm po nenv q (jsOrElse ov q.actionType)).loginPage
              = true <;>
          by_cases ho : (submitViaNativeForm po nenv q (jsOrElse ov q.actionType)).ok
              = true <;>
            simp [submitQueueAction, hu, hdel, heff, hl, ho, hc]
      · simp [submitQueueAction, hu, hdel, heff] at hsub
        split at hsub <;> simp at hsub

/-- Witness for C3 (amended): a dispatched native attempt whose frame load
completed (forbidden outcome) issues no network request. -/
theorem claim3_witness :
    (submitQueueAction "https://app.example" candAlpha
      { headerToken := some headerTokFix, tokenSource := "meta" } (some "pause")
      { liveForms := [formAlpha], submitThrows := false, loaded := true,
        frameDoc := some blankDoc }
      (NetBehavior.resp respSafeRedirect)).netPosted = false :=
  claim3_amended "https://app.example" candAlpha
    { headerToken := some headerTokFix, tokenSource := "meta" } (some "pause") _ _
    (by decide) (by decide)

/-! ## Claim C2 -/

/-- The outcome `submitQueueAction` returns when the native attempt's frame
shows a login page (source: `{ ok:false, status:200, is403:false, ...,
loginPage:true, diagKind:'LOGIN' }`). -/
def loginNativeOutcome : SubmitOutcome :=
  { ok := false, status := 200, is403 := false, bodySnippet := "", loginPage := true,
    diagKind := .LOGIN, hasQueuesTable := false, freshDoc := none }

def okRedirectOutcome : SubmitOutcome :=
  { ok := true, status := 302, is403 := false, bodySnippet := "", loginPage := false,
    diagKind := .NONE, hasQueuesTable := false, freshDoc := none }

/-- A frame document that is a rendered login page. -/
def docLogin : Doc := { blankDoc with hasPasswordInput := true }

def nenvLogin : NativeEnv :=
  { liveForms := [formAlpha], submitThrows := false, loaded := true,
    frameDoc := some docLogin }

/-- The normalized outcome of a call, when it returned rather than threw. -/
def callOutcome (r : SubmitCallRes) : Option SubmitOutcome :=
  match r.result with
  | .ok o => some o
  | .error _ => none

/-- Environment exhibiting the C2 divergence: the live page lists two
actionable queues; the first submission's response is a detected login page
(as the native path reports it: status 200, not forbidden); every fetch
still answers. -/
def envC2 : Env :=
  { pageOrigin := "https://app.example"
    lives := fun _ => docPair
    fetches := fun _ =>
      .ret { doc := docDone, htmlText := "", status := 200, xCsrfToken := none }
    submits := fun n => if n == 0 then .ret loginNativeOutcome else .ret okRedirectOutcome }

/-- C2 fails on the code: (1) the login-page outcome with `status 200,
is403 false` is exactly what the executor produces when the hidden frame
shows a login page; (2) fed that outcome on its first submission, the
controller does not abort - it records an ordinary "HTTP 200" error,
submits the SECOND queue, performs a further page fetch, and ends with
`aborted = false` and an empty abort reason (here even `success = true`). -/
theorem claim2_code_bug :
    callOutcome (submitQueueAction "https://app.example" candAlpha
      { headerToken := some headerTokFix, tokenSource := "meta" } (some "pause")
      nenvLogin (NetBehavior.fail "unused")) = some loginNativeOutcome ∧
    (convergeQueues envC2 "pause" 20).trace =
      [Event.submitEv "/sidekiq/queues/alpha" 1 false
         { ok := false, status := 200, is403 := false, loginish := true },
       Event.submitEv "/sidekiq/queues/beta" 1 false
         { ok := true, status := 302, is403 := false, loginish := false },
       Event.fetchEv (.passFetch 2) 2 .okRes] ∧
    (convergeQueues envC2 "pause" 20).results.aborted = false ∧
    (convergeQueues envC2 "pause" 20).results.abortReason = "" ∧
    (convergeQueues envC2 "pause" 20).results.errors =
      [{ queue := "alpha", error := "HTTP 200", pass := 1 }] ∧
    (convergeQueues envC2 "pause" 20).results.success = true := by
  decide

/-! ## Claim C5 -/

/-- A decision preserves `success` and `remainingQueues` relative to a base
result record. -/
def decPreserves (base : RunResults) : InnerDec → Prop
  | .done => True
  | .step _ st' => st'.res.success = base.success ∧ st'.res.remainingQueues = base.remainingQueues
  | .halt _ st' => st'.res.success = base.success ∧ st'.res.remainingQueues = base.remainingQueues

theorem decPreserves_mono {a b : RunResults} {d : InnerDec} (h : decPreserves a d)
    (hs : a.success = b.success) (hr : a.remainingQueues = b.remainingQueues) :
    decPreserves b d := by
  cases d <;> simp [decPreserves] at h ⊢ <;> simp_all

theorem handleRetry_res (env : Env) (at_ : String) (pass : Nat) (st : InnerSt)
    (q : Candidate) (ev : Event) (res1 : RunResults) (f : FetchOutcome) (cnt2 : Counters) :
    decPreserves res1 (handleRetry env at_ pass st q ev res1 f cnt2) := by
  simp only [handleRetry]
  cases henv : env.submits cnt2.submit with
  | thrown m2 => simp [decPreserves, advance, pushErr, applyRefreshStats]
  | ret rr =>
    by_cases h1 : rr.ok = true
    · simp [h1, decPreserves, restartWith, countRetrySuccess, applyRefreshStats]
    · by_cases h2 : (rr.is403 && (rr.loginPage || rr.diagKind == DiagKind.LOGIN)) = true
      · simp [h1, h2, decPreserves, haltSt, abortWith, applyRefreshStats]
      · simp [h1, h2, decPreserves, restartWith, pushErr, applyRefreshStats]

theorem handleRefresh_res (env : Env) (at_ : String) (pass : Nat) (st : InnerSt)
    (q : Candidate) (ev : Event) (res1 : RunResults) (cnt1 : Counters) :
    decPreserves res1 (handleRefresh env at_ pass st q ev res1 cnt1) := by
  simp only [handleRefresh]
  cases henv : env.fetches cnt1.fetch with
  | thrown m => simp [decPreserves, advance, pushErr]
  | ret f =>
    by_cases hl : fetchLoginPage f = true
    · simp [hl, decPreserves, haltSt, abortWith]
    · simpa [hl] using handleRetry_res env at_ pass st q ev res1 f (bumpFetch cnt1)

theorem handle403_res (env : Env) (at_ : String) (pass : Nat) (st : InnerSt)
    (q : Candidate) (ev : Event) (r : SubmitOutcome) (cnt1 : Counters) :
    decPreserves st.res (handle403 env at_ pass st q ev r cnt1) := by
  simp only [handle403]
  by_cases h1 : (r.loginPage || r.diagKind == DiagKind.LOGIN) = true
  · simp [h1, decPreserves, haltSt, abortWith, count403]
  · by_cases h2 : st.tokenRefreshed = true
    · simp [h1, h2, decPreserves, advance, count403]
    · have h := handleRefresh_res env at_ pass st q ev (count403 st.res) cnt1
      have h' := @decPreserves_mono (count403 st.res) st.res _ h rfl rfl
      simpa [h1, h2] using h'

theorem handleOk_res (env : Env) (at_ : String) (pass : Nat) (st : InnerSt)
    (q : Candidate) (ev : Event) (r : SubmitOutcome) (cnt1 : Counters) :
    decPreserves st.res (handleOk env at_ pass st q ev r cnt1) := by
  simp only [handleOk]
  cases hf : r.freshDoc with
  | none => simp [decPreserves, advance, countProcessed]
  | some fd =>
    by_cases hch : ((getHeaderCsrfTokenExtended fd none).1 != st.ctx.headerToken) = true
    · simp [hch, decPreserves, restartWith, countProcessed, setHeaderSource]
    · simp [hch, decPreserves, restartWith, countProcessed]

theorem handleOutcome_res (env : Env) (at_ : String) (pass : Nat) (st : InnerSt)
    (q : Candidate) (r : SubmitOutcome) (cnt1 : Counters) :
    decPreserves st.res (handleOutcome env at_ pass st q r cnt1) := by
  simp only [handleOutcome]
  by_cases h1 : r.ok = true
  · simpa [h1] using handleOk_res env at_ pass st q _ r cnt1
  · by_cases h2 : r.is403 = true
    · simpa [h1, h2] using handle403_res env at_ pass st q _ r cnt1
    · simp [h1, h2, decPreserves, advance, pushErr]

/-- One inner-loop iteration never changes `success` or `remainingQueues`. -/
theorem innerStep_res (env : Env) (at_ : String) (pass : Nat) (st : InnerSt) :
    decPreserves st.res (innerStep env at_ pass st) := by
  simp only [innerStep]
  by_cases h1 : decide (st.i < st.actionable.length) = true
  · rw [if_pos h1]
    by_cases hskip : recheckSkip env at_ st (st.actionable.getD st.i default) = true
    · rw [if_pos hskip]
      simp [decPreserves, advance]
    · rw [if_neg hskip]
      cases henv : env.submits (recheckCnt st).submit with
      | thrown msg => simp [decPreserves, advance, pushErr]
      | ret r => exact handleOutcome_res env at_ pass st _ r _
  · rw [if_neg h1]
    simp [decPreserves]

/-- The inner queue loop never changes `success` or `remainingQueues`: those
are decided only at pass starts and in the final check. -/
theorem innerLoop_res_invariants (env : Env) (at_ : String) (pass : Nat) :
    ∀ fuel st, (innerLoop env at_ pass fuel st).st.res.success = st.res.success ∧
      (innerLoop env at_ pass fuel st).st.res.remainingQueues = st.res.remainingQueues := by
  intro fuel
  induction fuel with
  | zero => intro st; exact ⟨rfl, rfl⟩
  | succ n ih =>
    intro st
    rw [innerLoop]
    cases hstep : innerStep env at_ pass st with
    | done => exact ⟨rfl, rfl⟩
    | halt evs st' =>
      have h := innerStep_res env at_ pass st
      rw [hstep] at h
      have h' : st'.res.success = st.res.success ∧
          st'.res.remainingQueues = st.res.remainingQueues := h
      exact h'
    | step evs st' =>
      have h := innerStep_res env at_ pass st
      rw [hstep] at h
      have h' : st'.res.success = st.res.success ∧
          st'.res.remainingQueues = st.res.remainingQueues := h
      exact ⟨(ih st').1.trans h'.1, (ih st').2.trans h'.2⟩


/-- A prepared pass keeps the incoming `success` flag. -/
def prepSuccessEq (base : RunResults) : PrepRes → Prop
  | .halted res _ _ => res.success = base.success ∧ res.remainingQueues = base.remainingQueues
  | .ready res _ _ _ _ => res.success = base.success ∧ res.remainingQueues = base.remainingQueues

theorem prepSuccessEq_mono {a b : RunResults} {d : PrepRes} (h : prepSuccessEq a d)
    (hs : a.success = b.success) (hr : a.remainingQueues = b.remainingQueues) :
    prepSuccessEq b d := by
  cases d <;> simp [prepSuccessEq] at h ⊢ <;> simp_all

theorem preflightStep_success (env : Env) (pass : Nat) (res2 : RunResults)
    (cnt1 : Counters) (evs1 : List Event) (doc1 : Doc) (hd : Option String × String) :
    prepSuccessEq res2 (preflightStep env pass res2 cnt1 evs1 doc1 hd) := by
  simp only [preflightStep]
  by_cases h1 : (jsFalsy hd.1 && pass == 1) = true
  · rw [if_pos h1]
    cases henv : env.fetches cnt1.fetch with
    | thrown m => simp [prepSuccessEq]
    | ret f =>
      by_cases hl : fetchLoginPage f = true
      · simp [hl, prepSuccessEq, abortWith]
      · simp [hl, prepSuccessEq, setHeaderSource]
  · rw [if_neg h1]
    simp [prepSuccessEq]

theorem preparePass_success (env : Env) (pass : Nat) (res0 : RunResults) (cnt0 : Counters) :
    prepSuccessEq res0 (preparePass env pass res0 cnt0) := by
  simp only [preparePass]
  by_cases h1 : (pass == 1) = true
  · rw [if_pos h1]
    exact prepSuccessEq_mono (preflightStep_success env pass _ _ _ _ _)
      (by simp [setHeaderSource]) (by simp [setHeaderSource])
  · rw [if_neg h1]
    cases henv : env.fetches cnt0.fetch with
    | thrown m =>
      dsimp only
      exact prepSuccessEq_mono (preflightStep_success env pass _ _ _ _ _)
        (by simp [setHeaderSource]) (by simp [setHeaderSource])
    | ret f =>
      dsimp only
      by_cases hl : fetchLoginPage f = true
      · simp [hl, prepSuccessEq, abortWith]
      · rw [if_neg (by simp [hl])]
        exact prepSuccessEq_mono (preflightStep_success env pass _ _ _ _ _)
          (by simp [setHeaderSource]) (by simp [setHeaderSource])

/-- The pass loop declares success exactly when some pass-start enumeration
came back empty. -/
theorem passLoop_success_iff (env : Env) (at_ : String) (innerFuel : Nat) :
    ∀ remaining pass res cnt, res.success = false →
      ((passLoop env at_ innerFuel remaining pass res cnt).res.success = true ↔
        ∃ l ∈ (passLoop env at_ innerFuel remaining pass res cnt).enums, l = []) := by
  intro remaining
  induction remaining with
  | zero => intro pass res cnt h; simp [passLoop, h]
  | succ rem ih =>
    intro pass res cnt h
    rw [passLoop]
    cases hprep : preparePass env pass { res with passesUsed := pass } cnt with
    | halted res1 cnt1 evs =>
      dsimp only
      have hs : res1.success = res.success := by
        have hp := preparePass_success env pass { res with passesUsed := pass } cnt
        rw [hprep] at hp
        exact hp.1
      simp [hs, h]
    | ready res3 cnt3 evs3 doc3 ctx3 =>
      dsimp only
      have hs : res3.success = res.success := by
        have hp := preparePass_success env pass { res with passesUsed := pass } cnt
        rw [hprep] at hp
        exact hp.1
      by_cases hemp : (getActionableQueues env.pageOrigin doc3 at_).isEmpty = true
      · rw [if_pos hemp]
        have : getActionableQueues env.pageOrigin doc3 at_ = [] :=
          List.isEmpty_iff.mp hemp
        simp [this]
      · rw [if_neg hemp]
        have hne : getActionableQueues env.pageOrigin doc3 at_ ≠ [] := by
          intro hcon
          exact hemp (by simp [hcon])
        by_cases habort : (innerLoop env at_ pass innerFuel
            { actionable := getActionableQueues env.pageOrigin doc3 at_, i := 0,
              succeeded := [], tokenRefreshed := false, ctx := ctx3, res := res3,
              cnt := cnt3 }).st.res.aborted = true
        · rw [if_pos habort]
          have hsucc := (innerLoop_res_invariants env at_ pass innerFuel
            { actionable := getActionableQueues env.pageOrigin doc3 at_, i := 0,
              succeeded := [], tokenRefreshed := false, ctx := ctx3, res := res3,
              cnt := cnt3 }).1
          simp only [hsucc, hs, h]
          simp [hne]
        · rw [if_neg habort]
          have hsucc := (innerLoop_res_invariants env at_ pass innerFuel
            { actionable := getActionableQueues env.pageOrigin doc3 at_, i := 0,
              succeeded := [], tokenRefreshed := false, ctx := ctx3, res := res3,
              cnt := cnt3 }).1
          have ihh := ih (pass + 1)
            (innerLoop env at_ pass innerFuel
              { actionable := getActionableQueues env.pageOrigin doc3 at_, i := 0,
                succeeded := [], tokenRefreshed := false, ctx := ctx3, res := res3,
                cnt := cnt3 }).st.res
            (innerLoop env at_ pass innerFuel
              { actionable := getActionableQueues env.pageOrigin doc3 at_, i := 0,
                succeeded := [], tokenRefreshed := false, ctx := ctx3, res := res3,
                cnt := cnt3 }).st.cnt
            (by rw [hsucc]; simp [hs, h])
          simp only [List.mem_cons]
          rw [ihh]
          constructor
          · intro ⟨l, hl, hleq⟩
            exact ⟨l, Or.inr hl, hleq⟩
          · intro ⟨l, hl, hleq⟩
            rcases hl with rfl | hl
            · exact absurd hleq hne
            · exact ⟨l, hl, hleq⟩

/-- C5: the run's `success` is true iff some pass-start enumeration found
zero actionable queues or the final fresh-fetch enumeration (performed
whenever no pass start did) found zero; when the final enumeration ran, the
remaining queue names are recorded from it. -/
theorem claim5_success_iff_empty_enumeration (env : Env) (at_ : String) (innerFuel : Nat) :
    ((convergeQueues env at_ innerFuel).results.success = true ↔
      ((∃ l ∈ (convergeQueues env at_ innerFuel).passEnums, l = []) ∨
        (convergeQueues env at_ innerFuel).finalEnum = some [])) ∧
    (∀ l, (convergeQueues env at_ innerFuel).finalEnum = some l →
      (convergeQueues env at_ innerFuel).results.remainingQueues =
        l.map Candidate.queueName) := by
  have hiff := passLoop_success_iff env at_ innerFuel MAX_PASSES 1 initialResults
    { live := 0, fetch := 0, submit := 0 } rfl
  unfold convergeQueues
  by_cases hsucc : (passLoop env at_ innerFuel MAX_PASSES 1 initialResults
      { live := 0, fetch := 0, submit := 0 }).res.success = true
  · rw [if_pos hsucc]
    refine ⟨?_, ?_⟩
    · simp only [hsucc, true_iff]
      exact Or.inl (hiff.mp hsucc)
    · intro l hl
      simp at hl
  · rw [if_neg hsucc]
    have hnex : ¬∃ l ∈ (passLoop env at_ innerFuel MAX_PASSES 1 initialResults
        { live := 0, fetch := 0, submit := 0 }).enums, l = [] := by
      intro hex
      exact hsucc (hiff.mpr hex)
    have hfalse : (passLoop env at_ innerFuel MAX_PASSES 1 initialResults
        { live := 0, fetch := 0, submit := 0 }).res.success = false :=
      Bool.not_eq_true _ ▸ Bool.eq_false_iff.mpr (fun hc => hsucc hc)
    cases hf : env.fetches (passLoop env at_ innerFuel MAX_PASSES 1 initialResults
        { live := 0, fetch := 0, submit := 0 }).cnt.fetch with
    | thrown m =>
      dsimp only
      refine ⟨?_, ?_⟩
      · simp [hfalse, hnex]
      · intro l hl
        simp at hl
    | ret f =>
      dsimp only
      by_cases hemp : (getActionableQueues env.pageOrigin f.doc at_).isEmpty = true
      · rw [if_pos hemp]
        have he : getActionableQueues env.pageOrigin f.doc at_ = [] :=
          List.isEmpty_iff.mp hemp
        refine ⟨?_, ?_⟩
        · simp [he]
        · intro l hl
          simp only [Option.some.injEq] at hl
          subst hl
          simp [he]
      · rw [if_neg hemp]
        have hne : getActionableQueues env.pageOrigin f.doc at_ ≠ [] := by
          intro hcon
          exact hemp (by simp [hcon])
        refine ⟨?_, ?_⟩
        · simp [hfalse, hnex, hne]
        · intro l hl
          simp only [Option.some.injEq] at hl
          subst hl
          rfl

/-- Submissions that always fail with an ordinary error, so no enumeration
ever empties and the final check reports the remaining queues. -/
def envC5W : Env :=
  { pageOrigin := "https://app.example"
    lives := fun _ => docPair
    fetches := fun _ =>
      .ret { doc := docPair, htmlText := "", status := 200, xCsrfToken := none }
    submits := fun _ =>
      .ret { ok := false, status := 500, is403 := false, bodySnippet := "",
             loginPage := false, diagKind := .NONE, hasQueuesTable := false,
             freshDoc := none } }

/-- Witness for C5: the final enumeration ran and its queue names were
recorded in `remainingQueues`. -/
theorem claim5_witness :
    (convergeQueues envC5W "pause" 12).results.remainingQueues =
      (getActionableQueues "https://app.example" docPair "pause").map Candidate.queueName :=
  (claim5_success_iff_empty_enumeration envC5W "pause" 12).2
    (getActionableQueues "https://app.example" docPair "pause") (by decide)

/-! ### C4: the per-pass token-refresh budget, as counting over the trace -/

/-- The pass tag an event carries. -/
def evPass : Event → Nat
  | .fetchEv _ p _ => p
  | .submitEv _ p _ _ => p
  | .submitThrowEv _ p _ _ => p

/-- Is this a token-refresh fetch? -/
def isRefreshFetch : Event → Bool
  | .fetchEv .tokenRefresh _ _ => true
  | _ => false

/-- The queue key of a retry submission event (dispatched or thrown). -/
def retryKey : Event → Option String
  | .submitEv k _ r _ => if r then some k else none
  | .submitThrowEv k _ r _ => if r then some k else none
  | _ => none

/-- The queue key of a first-attempt submission whose observed outcome is
forbidden and not login-like: exactly the refresh-and-retry trigger the
source tests. -/
def trigKey : Event → Option String
  | .submitEv k _ r o => if !r && !o.ok && o.is403 && !o.loginish then some k else none
  | _ => none

def isRetryEv (e : Event) : Bool := (retryKey e).isSome

def isTriggerEv (e : Event) : Bool := (trigKey e).isSome

/-- Count of events satisfying `f`. -/
def cntE (f : Event → Bool) (l : List Event) : Nat := (l.filter f).length

/-- Count of events satisfying `f` that are tagged with pass `p`. -/
def countAt (f : Event → Bool) (p : Nat) (l : List Event) : Nat :=
  (l.filter fun e => f e && evPass e == p).length

/-- The most recent refresh trigger's key after processing the trace. -/
def updTrig (acc : Option String) (e : Event) : Option String :=
  match trigKey e with
  | some k => some k
  | none => acc

def lastTrig : Option String → List Event → Option String
  | acc, [] => acc
  | acc, e :: rest => lastTrig (updTrig acc e) rest

/-- Every retry submission targets the queue of the most recent refresh
trigger: the controller retries only the queue that triggered the refresh. -/
def retriesMatch : Option String → List Event → Bool
  | _, [] => true
  | acc, e :: rest =>
    (match retryKey e with
     | some k => acc == some k
     | none => true) && retriesMatch (updTrig acc e) rest

theorem cntE_append (f : Event → Bool) (a b : List Event) :
    cntE f (a ++ b) = cntE f a + cntE f b := by
  simp [cntE, List.filter_append]

theorem countAt_append (f : Event → Bool) (p : Nat) (a b : List Event) :
    countAt f p (a ++ b) = countAt f p a + countAt f p b := by
  simp [countAt, List.filter_append]

theorem lastTrig_append (b : List Event) : ∀ (a : List Event) (acc : Option String),
    lastTrig acc (a ++ b) = lastTrig (lastTrig acc a) b := by
  intro a
  induction a with
  | nil => intro acc; simp [lastTrig]
  | cons e rest ih => intro acc; simp [lastTrig, ih]

theorem retriesMatch_append (b : List Event) : ∀ (a : List Event) (acc : Option String),
    retriesMatch acc (a ++ b) =
      (retriesMatch acc a && retriesMatch (lastTrig acc a) b) := by
  intro a
  induction a with
  | nil => intro acc; simp [retriesMatch, lastTrig]
  | cons e rest ih =>
    intro acc
    simp [retriesMatch, lastTrig, ih, Bool.and_assoc]

/-- A trigger event cannot itself be a retry. -/
theorem trigKey_inv {ev : Event} {k : String} (h : trigKey ev = some k) :
    ∃ p o, ev = .submitEv k p false o ∧ (!o.ok && o.is403 && !o.loginish) = true := by
  cases ev with
  | fetchEv l p r => simp [trigKey] at h
  | submitThrowEv k' p r m => simp [trigKey] at h
  | submitEv k' p r o =>
    by_cases hc : (!r && !o.ok && o.is403 && !o.loginish) = true
    · rw [trigKey, if_pos hc] at h
      have hk : k' = k := by simpa using h
      have hr : r = false := by
        cases r with
        | false => rfl
        | true => simp at hc
      refine ⟨p, o, ?_, ?_⟩
      · rw [hk, hr]
      · simpa [hr] using hc
    · rw [trigKey, if_neg hc] at h
      cases h

/-- Tagged counting of a list all of whose events carry pass `pass`. -/
theorem countAt_of_all {l : List Event} {pass : Nat}
    (h : l.all (fun e => evPass e == pass) = true) (f : Event → Bool) (p : Nat) :
    countAt f p l = if p = pass then cntE f l else 0 := by
  induction l with
  | nil => simp [countAt, cntE]
  | cons e rest ih =>
    rw [List.all_cons, Bool.and_eq_true] at h
    have he : evPass e = pass := by simpa using h.1
    have ih' := ih h.2
    by_cases hp : p = pass
    · subst hp
      rw [if_pos rfl] at ih' ⊢
      cases hf : f e with
      | true =>
        simp [countAt, cntE, List.filter_cons, he, hf] at *
        omega
      | false => simpa [countAt, cntE, List.filter_cons, he, hf] using ih'
    · rw [if_neg hp] at ih' ⊢
      have hne : (evPass e == p) = false := by
        simp [he]
        omega
      simpa [countAt, List.filter_cons, hne] using ih'

theorem countAt_zero_of_ne {l : List Event} {q : Nat}
    (h : ∀ e ∈ l, evPass e ≠ q) (f : Event → Bool) : countAt f q l = 0 := by
  induction l with
  | nil => rfl
  | cons e rest ih =>
    simp only [countAt, List.filter_cons]
    have : (f e && evPass e == q) = false := by
      have := h e (by simp)
      simp [this]
    rw [this]
    exact ih fun x hx => h x (by simp [hx])

/-- What one inner-loop iteration contributes to the per-pass refresh
budget, as a function of the incoming `tokenRefreshed` flag: once the flag
is set, no further refresh fetch or retry happens; while it is clear, an
iteration either stays quiet (no refresh, no retry, no trigger) or performs
exactly one refresh fetch with at most one retry and sets the flag. -/
def refreshSpec (pass : Nat) (flag : Bool) : InnerDec → Prop
  | .done => True
  | .step evs st' =>
      (∀ acc, retriesMatch acc evs = true) ∧
      evs.all (fun e => evPass e == pass) = true ∧
      (flag = true → cntE isRefreshFetch evs = 0 ∧ cntE isRetryEv evs = 0 ∧
        st'.tokenRefreshed = true) ∧
      (flag = false →
        (cntE isRefreshFetch evs = 0 ∧ cntE isRetryEv evs = 0 ∧
          cntE isTriggerEv evs = 0 ∧ st'.tokenRefreshed = false) ∨
        (cntE isRefreshFetch evs = 1 ∧ cntE isRetryEv evs ≤ 1 ∧
          st'.tokenRefreshed = true))
  | .halt evs _ =>
      (∀ acc, retriesMatch acc evs = true) ∧
      evs.all (fun e => evPass e == pass) = true ∧
      cntE isRefreshFetch evs ≤ 1 ∧ cntE isRetryEv evs ≤ 1 ∧
      (flag = true → cntE isRefreshFetch evs = 0 ∧ cntE isRetryEv evs = 0) ∧
      (flag = false → 0 < cntE isTriggerEv evs → cntE isRefreshFetch evs = 1)

theorem handleRetry_refresh (env : Env) (at_ : String) (pass : Nat) (st : InnerSt)
    (q : Candidate) (ev : Event) (res1 : RunResults) (f : FetchOutcome) (cnt2 : Counters)
    (htr : trigKey ev = some q.actionPathKey) (hp : evPass ev = pass) :
    refreshSpec pass false (handleRetry env at_ pass st q ev res1 f cnt2) := by
  obtain ⟨p0, o, rfl, ho⟩ := trigKey_inv htr
  have hp0 : p0 = pass := by simpa [evPass] using hp
  subst hp0
  simp only [handleRetry]
  cases hfr : mapGet (buildQueueTokenMap env.pageOrigin f.doc at_) q.actionPathKey with
  | none =>
    cases henv : env.submits cnt2.submit with
    | thrown m2 =>
      dsimp only [refreshSpec]
      refine ⟨?_, ?_, ?_, ?_⟩
      · intro acc
        simp [retriesMatch, retryKey, updTrig, trigKey, ho]
      · simp [List.all, evPass]
      · intro hc; cases hc
      · intro _
        refine Or.inr ⟨?_, ?_, ?_⟩
        · simp [cntE, isRefreshFetch, trigKey, ho]
        · simp [cntE, isRetryEv, retryKey, trigKey, ho]
        · simp [advance]
    | ret rr =>
      dsimp only
      by_cases h1 : rr.ok = true
      · rw [if_pos h1]
        dsimp only [refreshSpec]
        refine ⟨?_, ?_, ?_, ?_⟩
        · intro acc
          simp [retriesMatch, retryKey, updTrig, trigKey, ho]
        · simp [List.all, evPass]
        · intro hc; cases hc
        · intro _
          refine Or.inr ⟨?_, ?_, ?_⟩
          · simp [cntE, isRefreshFetch, trigKey, ho]
          · simp [cntE, isRetryEv, retryKey, trigKey, ho]
          · simp [restartWith]
      · rw [if_neg h1]
        by_cases h2 : (rr.is403 && (rr.loginPage || rr.diagKind == DiagKind.LOGIN)) = true
        · rw [if_pos h2]
          dsimp only [refreshSpec]
          refine ⟨?_, ?_, ?_, ?_, ?_, ?_⟩
          · intro acc
            simp [retriesMatch, retryKey, updTrig, trigKey, ho]
          · simp [List.all, evPass]
          · simp [cntE, isRefreshFetch, trigKey, ho]
          · simp [cntE, isRetryEv, retryKey, trigKey, ho]
          · intro hc; cases hc
          · intro _ _
            simp [cntE, isRefreshFetch, trigKey, ho]
        · rw [if_neg h2]
          dsimp only [refreshSpec]
          refine ⟨?_, ?_, ?_, ?_⟩
          · intro acc
            simp [retriesMatch, retryKey, updTrig, trigKey, ho]
          · simp [List.all, evPass]
          · intro hc; cases hc
          · intro _
            refine Or.inr ⟨?_, ?_, ?_⟩
            · simp [cntE, isRefreshFetch, trigKey, ho]
            · simp [cntE, isRetryEv, retryKey, trigKey, ho]
            · simp [restartWith]
  | some fr =>
    cases henv : env.submits cnt2.submit with
    | thrown m2 =>
      dsimp only [refreshSpec]
      refine ⟨?_, ?_, ?_, ?_⟩
      · intro acc
        simp [retriesMatch, retryKey, updTrig, trigKey, ho]
      · simp [List.all, evPass]
      · intro hc; cases hc
      · intro _
        refine Or.inr ⟨?_, ?_, ?_⟩
        · simp [cntE, isRefreshFetch, trigKey, ho]
        · simp [cntE, isRetryEv, retryKey, trigKey, ho]
        · simp [advance]
    | ret rr =>
      dsimp only
      by_cases h1 : rr.ok = true
      · rw [if_pos h1]
        dsimp only [refreshSpec]
        refine ⟨?_, ?_, ?_, ?_⟩
        · intro acc
          simp [retriesMatch, retryKey, updTrig, trigKey, ho]
        · simp [List.all, evPass]
        · intro hc; cases hc
        · intro _
          refine Or.inr ⟨?_, ?_, ?_⟩
          · simp [cntE, isRefreshFetch, trigKey, ho]
          · simp [cntE, isRetryEv, retryKey, trigKey, ho]
          · simp [restartWith]
      · rw [if_neg h1]
        by_cases h2 : (rr.is403 && (rr.loginPage || rr.diagKind == DiagKind.LOGIN)) = true
        · rw [if_pos h2]
          dsimp only [refreshSpec]
          refine ⟨?_, ?_, ?_, ?_, ?_, ?_⟩
          · intro acc
            simp [retriesMatch, retryKey, updTrig, trigKey, ho]
          · simp [List.all, evPass]
          · simp [cntE, isRefreshFetch, trigKey, ho]
          · simp [cntE, isRetryEv, retryKey, trigKey, ho]
          · intro hc; cases hc
          · intro _ _
            simp [cntE, isRefreshFetch, trigKey, ho]
        · rw [if_neg h2]
          dsimp only [refreshSpec]
          refine ⟨?_, ?_, ?_, ?_⟩
          · intro acc
            simp [retriesMatch, retryKey, updTrig, trigKey, ho]
          · simp [List.all, evPass]
          · intro hc; cases hc
          · intro _
            refine Or.inr ⟨?_, ?_, ?_⟩
            · simp [cntE, isRefreshFetch, trigKey, ho]
            · simp [cntE, isRetryEv, retryKey, trigKey, ho]
            · simp [restartWith]

theorem handleRefresh_refresh (env : Env) (at_ : String) (pass : Nat) (st : InnerSt)
    (q : Candidate) (ev : Event) (res1 : RunResults) (cnt1 : Counters)
    (htr : trigKey ev = some q.actionPathKey) (hp : evPass ev = pass) :
    refreshSpec pass false (handleRefresh env at_ pass st q ev res1 cnt1) := by
  simp only [handleRefresh]
  cases henv : env.fetches cnt1.fetch with
  | thrown m =>
    dsimp only
    obtain ⟨p0, o, rfl, ho⟩ := trigKey_inv htr
    have hp0 : p0 = pass := by simpa [evPass] using hp
    subst hp0
    dsimp only [refreshSpec]
    refine ⟨?_, ?_, ?_, ?_⟩
    · intro acc
      simp [retriesMatch, retryKey, updTrig, trigKey, ho]
    · simp [List.all, evPass]
    · intro hc; cases hc
    · intro _
      refine Or.inr ⟨?_, ?_, ?_⟩
      · simp [cntE, isRefreshFetch, trigKey, ho]
      · simp [cntE, isRetryEv, retryKey, trigKey, ho]
      · simp [advance]
  | ret f =>
    dsimp only
    by_cases hl : fetchLoginPage f = true
    · rw [if_pos hl]
      obtain ⟨p0, o, rfl, ho⟩ := trigKey_inv htr
      have hp0 : p0 = pass := by simpa [evPass] using hp
      subst hp0
      dsimp only [refreshSpec]
      refine ⟨?_, ?_, ?_, ?_, ?_, ?_⟩
      · intro acc
        simp [retriesMatch, retryKey, updTrig, trigKey, ho]
      · simp [List.all, evPass]
      · simp [cntE, isRefreshFetch, trigKey, ho]
      · simp [cntE, isRetryEv, retryKey, trigKey, ho]
      · intro hc; cases hc
      · intro _ _
        simp [cntE, isRefreshFetch, trigKey, ho]
    · rw [if_neg hl]
      exact handleRetry_refresh env at_ pass st q ev res1 f (bumpFetch cnt1) htr hp

theorem handle403_refresh (env : Env) (at_ : String) (pass : Nat) (st : InnerSt)
    (q : Candidate) (r : SubmitOutcome) (cnt1 : Counters)
    (hok : r.ok = false) (h403 : r.is403 = true) :
    refreshSpec pass st.tokenRefreshed
      (handle403 env at_ pass st q
        (Event.submitEv q.actionPathKey pass false (obsOf r)) r cnt1) := by
  simp only [handle403]
  by_cases h1 : (r.loginPage || r.diagKind == DiagKind.LOGIN) = true
  · rw [if_pos h1]
    dsimp only [refreshSpec]
    refine ⟨?_, ?_, ?_, ?_, ?_, ?_⟩
    · intro acc
      simp [retriesMatch, retryKey, updTrig, trigKey]
    · simp [List.all, evPass]
    · simp [cntE, isRefreshFetch]
    · simp [cntE, isRetryEv, retryKey]
    · intro _
      exact ⟨by simp [cntE, isRefreshFetch], by simp [cntE, isRetryEv, retryKey]⟩
    · intro _ htrg
      have : cntE isTriggerEv [Event.submitEv q.actionPathKey pass false (obsOf r)] = 0 := by
        simp [cntE, isTriggerEv, trigKey, obsOf, h1]
      omega
  · rw [if_neg h1]
    have h1f : (r.loginPage || r.diagKind == DiagKind.LOGIN) = false := by simpa using h1
    by_cases h2 : st.tokenRefreshed = true
    · simp only [h2, Bool.not_true, Bool.false_eq_true, if_false]
      dsimp only [refreshSpec]
      refine ⟨?_, ?_, ?_, ?_⟩
      · intro acc
        simp [retriesMatch, retryKey, updTrig, trigKey]
      · simp [List.all, evPass]
      · intro _
        refine ⟨by simp [cntE, isRefreshFetch], by simp [cntE, isRetryEv, retryKey], ?_⟩
        simp [advance, h2]
      · intro hc
        cases hc
    · have h2f : st.tokenRefreshed = false := by simpa using h2
      rw [h2f]
      simp only [h2f, Bool.not_false, if_true]
      exact handleRefresh_refresh env at_ pass st q _ (count403 st.res) cnt1
        (by simp [trigKey, obsOf, hok, h403, h1f]) rfl

theorem handleOk_refresh (env : Env) (at_ : String) (pass : Nat) (st : InnerSt)
    (q : Candidate) (r : SubmitOutcome) (cnt1 : Counters) (hok : r.ok = true) :
    refreshSpec pass st.tokenRefreshed
      (handleOk env at_ pass st q
        (Event.submitEv q.actionPathKey pass false (obsOf r)) r cnt1) := by
  simp only [handleOk]
  cases hf : r.freshDoc with
  | none =>
    dsimp only [refreshSpec]
    refine ⟨?_, ?_, ?_, ?_⟩
    · intro acc
      simp [retriesMatch, retryKey, updTrig, trigKey]
    · simp [List.all, evPass]
    · intro hT
      refine ⟨by simp [cntE, isRefreshFetch], by simp [cntE, isRetryEv, retryKey], ?_⟩
      simp [advance, hT]
    · intro hF
      refine Or.inl ⟨by simp [cntE, isRefreshFetch], by simp [cntE, isRetryEv, retryKey],
        by simp [cntE, isTriggerEv, trigKey, obsOf, hok], by simp [advance, hF]⟩
  | some fd =>
    dsimp only [refreshSpec]
    refine ⟨?_, ?_, ?_, ?_⟩
    · intro acc
      simp [retriesMatch, retryKey, updTrig, trigKey]
    · simp [List.all, evPass]
    · intro hT
      refine ⟨by simp [cntE, isRefreshFetch], by simp [cntE, isRetryEv, retryKey], ?_⟩
      simp [restartWith, hT]
    · intro hF
      refine Or.inl ⟨by simp [cntE, isRefreshFetch], by simp [cntE, isRetryEv, retryKey],
        by simp [cntE, isTriggerEv, trigKey, obsOf, hok], by simp [restartWith, hF]⟩

theorem handleOutcome_refresh (env : Env) (at_ : String) (pass : Nat) (st : InnerSt)
    (q : Candidate) (r : SubmitOutcome) (cnt1 : Counters) :
    refreshSpec pass st.tokenRefreshed (handleOutcome env at_ pass st q r cnt1) := by
  simp only [handleOutcome]
  by_cases h1 : r.ok = true
  · rw [if_pos h1]
    exact handleOk_refresh env at_ pass st q r cnt1 h1
  · rw [if_neg h1]
    have h1f : r.ok = false := by simpa using h1
    by_cases h2 : r.is403 = true
    · rw [if_pos h2]
      exact handle403_refresh env at_ pass st q r cnt1 h1f h2
    · rw [if_neg h2]
      have h2f : r.is403 = false := by simpa using h2
      dsimp only [refreshSpec]
      refine ⟨?_, ?_, ?_, ?_⟩
      · intro acc
        simp [retriesMatch, retryKey, updTrig, trigKey]
      · simp [List.all, evPass]
      · intro hT
        refine ⟨by simp [cntE, isRefreshFetch], by simp [cntE, isRetryEv, retryKey], ?_⟩
        simp [advance, hT]
      · intro hF
        refine Or.inl ⟨by simp [cntE, isRefreshFetch], by simp [cntE, isRetryEv, retryKey],
          by simp [cntE, isTriggerEv, trigKey, obsOf, h2f], by simp [advance, hF]⟩

theorem innerStep_refresh (env : Env) (at_ : String) (pass : Nat) (st : InnerSt) :
    refreshSpec pass st.tokenRefreshed (innerStep env at_ pass st) := by
  simp only [innerStep]
  by_cases h1 : decide (st.i < st.actionable.length) = true
  · rw [if_pos h1]
    by_cases hskip : recheckSkip env at_ st (st.actionable.getD st.i default) = true
    · rw [if_pos hskip]
      dsimp only [refreshSpec]
      refine ⟨fun acc => rfl, rfl, ?_, ?_⟩
      · intro hT
        exact ⟨rfl, rfl, by simp [advance, hT]⟩
      · intro hF
        exact Or.inl ⟨rfl, rfl, rfl, by simp [advance, hF]⟩
    · rw [if_neg hskip]
      cases henv : env.submits (recheckCnt st).submit with
      | thrown msg =>
        dsimp only [refreshSpec]
        refine ⟨?_, ?_, ?_, ?_⟩
        · intro acc
          simp [retriesMatch, retryKey, updTrig, trigKey]
        · simp [List.all, evPass]
        · intro hT
          refine ⟨by simp [cntE, isRefreshFetch], by simp [cntE, isRetryEv, retryKey], ?_⟩
          simp [advance, hT]
        · intro hF
          refine Or.inl ⟨by simp [cntE, isRefreshFetch], by simp [cntE, isRetryEv, retryKey],
            by simp [cntE, isTriggerEv, trigKey], by simp [advance, hF]⟩
      | ret r => exact handleOutcome_refresh env at_ pass st _ r _
  · rw [if_neg h1]
    exact trivial

/-- Per-pass refresh budget of the inner loop: from a clear `tokenRefreshed`
flag (as every pass starts), at most one token-refresh fetch and at most one
retry happen, a refresh-trigger forces exactly one refresh fetch, every
retry targets the most recent trigger's queue, and every event carries the
pass's tag. -/
theorem innerLoop_refresh (env : Env) (at_ : String) (pass : Nat) :
    ∀ fuel st,
      (∀ acc, retriesMatch acc (innerLoop env at_ pass fuel st).events = true) ∧
      (innerLoop env at_ pass fuel st).events.all (fun e => evPass e == pass) = true ∧
      (st.tokenRefreshed = true →
        cntE isRefreshFetch (innerLoop env at_ pass fuel st).events = 0 ∧
        cntE isRetryEv (innerLoop env at_ pass fuel st).events = 0) ∧
      (st.tokenRefreshed = false →
        cntE isRefreshFetch (innerLoop env at_ pass fuel st).events ≤ 1 ∧
        cntE isRetryEv (innerLoop env at_ pass fuel st).events ≤ 1 ∧
        (0 < cntE isTriggerEv (innerLoop env at_ pass fuel st).events →
          cntE isRefreshFetch (innerLoop env at_ pass fuel st).events = 1)) := by
  intro fuel
  induction fuel with
  | zero =>
    intro st
    refine ⟨fun acc => rfl, rfl, fun _ => ⟨rfl, rfl⟩, fun _ => ⟨?_, ?_, ?_⟩⟩
    · simp [innerLoop, cntE]
    · simp [innerLoop, cntE]
    · intro h
      simp [innerLoop, cntE] at h
  | succ n ih =>
    intro st
    rw [innerLoop]
    have hspec := innerStep_refresh env at_ pass st
    cases hstep : innerStep env at_ pass st with
    | done =>
      refine ⟨fun acc => rfl, rfl, fun _ => ⟨rfl, rfl⟩, fun _ => ⟨?_, ?_, ?_⟩⟩
      · simp [cntE]
      · simp [cntE]
      · intro h
        simp [cntE] at h
    | halt evs st' =>
      rw [hstep] at hspec
      obtain ⟨hm, hall, hle1, hle2, hT, hF⟩ := hspec
      exact ⟨hm, hall, hT, fun hF' => ⟨hle1, hle2, hF hF'⟩⟩
    | step evs st' =>
      rw [hstep] at hspec
      obtain ⟨hm, hall, hT, hF⟩ := hspec
      obtain ⟨ihm, ihall, ihT, ihF⟩ := ih st'
      dsimp only
      refine ⟨?_, ?_, ?_, ?_⟩
      · intro acc
        rw [retriesMatch_append, hm acc, ihm (lastTrig acc evs)]
        rfl
      · simp [List.all_append, hall, ihall]
      · intro hT'
        obtain ⟨h1, h2, h3⟩ := hT hT'
        obtain ⟨h4, h5⟩ := ihT h3
        rw [cntE_append, cntE_append, h1, h2, h4, h5]
        exact ⟨rfl, rfl⟩
      · intro hF'
        rcases hF hF' with ⟨h1, h2, h3, h4⟩ | ⟨h1, h2, h3⟩
        · obtain ⟨h5, h6, h7⟩ := ihF h4
          rw [cntE_append, cntE_append, cntE_append, h1, h2, h3]
          refine ⟨by omega, by omega, ?_⟩
          intro htrg
          have h8 := h7 (by omega)
          omega
        · obtain ⟨h5, h6⟩ := ihT h3
          rw [cntE_append, cntE_append, cntE_append, h1, h5, h6]
          exact ⟨by omega, by omega, fun _ => by omega⟩

/-- Pass-preparation events: tagged with the pass, and free of refresh
fetches, retries and triggers. -/
def quietEvs (pass : Nat) (evs : List Event) : Prop :=
  evs.all (fun e => evPass e == pass) = true ∧
  cntE isRefreshFetch evs = 0 ∧ cntE isRetryEv evs = 0 ∧ cntE isTriggerEv evs = 0 ∧
  ∀ acc, retriesMatch acc evs = true

def prepQuiet (pass : Nat) : PrepRes → Prop
  | .halted _ _ evs => quietEvs pass evs
  | .ready _ _ evs _ _ => quietEvs pass evs

theorem quietEvs_fetch (pass : Nat) (l : FetchLabel) (r : FetchRes)
    (hl : l ≠ .tokenRefresh) (evs : List Event) (h : quietEvs pass evs) :
    quietEvs pass (evs ++ [Event.fetchEv l pass r]) := by
  obtain ⟨h1, h2, h3, h4, h5⟩ := h
  refine ⟨?_, ?_, ?_, ?_, ?_⟩
  · rw [List.all_append, h1]
    simp [evPass]
  · rw [cntE_append, h2]
    cases l <;> simp_all [cntE, isRefreshFetch]
  · rw [cntE_append, h3]
    simp [cntE, isRetryEv, retryKey]
  · rw [cntE_append, h4]
    simp [cntE, isTriggerEv, trigKey]
  · intro acc
    rw [retriesMatch_append, h5 acc]
    simp [retriesMatch, retryKey, updTrig, trigKey]

theorem quietEvs_nil (pass : Nat) : quietEvs pass [] :=
  ⟨rfl, rfl, rfl, rfl, fun _ => rfl⟩

theorem preflightStep_quiet (env : Env) (pass : Nat) (res2 : RunResults) (cnt1 : Counters)
    (evs1 : List Event) (doc1 : Doc) (hd : Option String × String)
    (h : quietEvs pass evs1) :
    prepQuiet pass (preflightStep env pass res2 cnt1 evs1 doc1 hd) := by
  simp only [preflightStep]
  by_cases hc : (jsFalsy hd.1 && pass == 1) = true
  · rw [if_pos hc]
    cases henv : env.fetches cnt1.fetch with
    | thrown m =>
      exact quietEvs_fetch pass .preflight .errRes (fun hx => nomatch hx) evs1 h
    | ret f =>
      dsimp only
      by_cases hl : fetchLoginPage f = true
      · rw [if_pos hl]
        exact quietEvs_fetch pass .preflight .loginRes (fun hx => nomatch hx) evs1 h
      · rw [if_neg hl]
        exact quietEvs_fetch pass .preflight .okRes (fun hx => nomatch hx) evs1 h
  · rw [if_neg hc]
    exact h

theorem preparePass_quiet (env : Env) (pass : Nat) (res0 : RunResults) (cnt0 : Counters) :
    prepQuiet pass (preparePass env pass res0 cnt0) := by
  simp only [preparePass]
  by_cases h1 : (pass == 1) = true
  · rw [if_pos h1]
    exact preflightStep_quiet env pass _ _ [] _ _ (quietEvs_nil pass)
  · rw [if_neg h1]
    cases henv : env.fetches cnt0.fetch with
    | thrown m =>
      dsimp only
      exact preflightStep_quiet env pass _ _ _ _ _
        (quietEvs_fetch pass (.passFetch pass) .errRes (fun hx => nomatch hx) []
          (quietEvs_nil pass))
    | ret f =>
      dsimp only
      by_cases hl : fetchLoginPage f = true
      · rw [if_pos hl]
        exact quietEvs_fetch pass (.passFetch pass) .loginRes (fun hx => nomatch hx) []
          (quietEvs_nil pass)
      · rw [if_neg hl]
        exact preflightStep_quiet env pass _ _ _ _ _
          (quietEvs_fetch pass (.passFetch pass) .okRes (fun hx => nomatch hx) []
            (quietEvs_nil pass))

theorem all_le_of_all_eq {l : List Event} {pass : Nat}
    (h : l.all (fun e => evPass e == pass) = true) :
    l.all (fun e => decide (pass ≤ evPass e)) = true := by
  rw [List.all_eq_true] at h ⊢
  intro e he
  have hx := h e he
  simp at hx ⊢
  omega

theorem all_le_mono {l : List Event} {a b : Nat} (hab : a ≤ b)
    (h : l.all (fun e => decide (b ≤ evPass e)) = true) :
    l.all (fun e => decide (a ≤ evPass e)) = true := by
  rw [List.all_eq_true] at h ⊢
  intro e he
  have hx := h e he
  simp at hx ⊢
  omega

theorem countAt_zero_of_all_le {l : List Event} {b p : Nat}
    (h : l.all (fun e => decide (b ≤ evPass e)) = true) (hp : p < b) (f : Event → Bool) :
    countAt f p l = 0 := by
  apply countAt_zero_of_ne
  intro e he
  have hx := (List.all_eq_true.mp h) e he
  simp at hx
  omega

theorem countAt_quiet {evs : List Event} {pass : Nat} (h : quietEvs pass evs) (p : Nat) :
    countAt isRefreshFetch p evs = 0 ∧ countAt isRetryEv p evs = 0 ∧
    countAt isTriggerEv p evs = 0 := by
  obtain ⟨hall, h2, h3, h4, _⟩ := h
  refine ⟨?_, ?_, ?_⟩
  · rw [countAt_of_all hall]
    by_cases hp : p = pass
    · simpa [hp] using h2
    · simp [hp]
  · rw [countAt_of_all hall]
    by_cases hp : p = pass
    · simpa [hp] using h3
    · simp [hp]
  · rw [countAt_of_all hall]
    by_cases hp : p = pass
    · simpa [hp] using h4
    · simp [hp]

/-- Per-pass refresh budget of the whole pass loop: over the run's trace,
every pass tag sees at most one token-refresh fetch and at most one retry,
a refresh trigger forces exactly one refresh fetch in that pass, and every
retry targets the queue of the most recent trigger. -/
theorem passLoop_refresh (env : Env) (at_ : String) (innerFuel : Nat) :
    ∀ remaining pass res0 cnt0,
      (∀ acc,
        retriesMatch acc (passLoop env at_ innerFuel remaining pass res0 cnt0).events = true) ∧
      (passLoop env at_ innerFuel remaining pass res0 cnt0).events.all
        (fun e => decide (pass ≤ evPass e)) = true ∧
      ∀ p,
        countAt isRefreshFetch p
          (passLoop env at_ innerFuel remaining pass res0 cnt0).events ≤ 1 ∧
        countAt isRetryEv p
          (passLoop env at_ innerFuel remaining pass res0 cnt0).events ≤ 1 ∧
        (0 < countAt isTriggerEv p
            (passLoop env at_ innerFuel remaining pass res0 cnt0).events →
          countAt isRefreshFetch p
            (passLoop env at_ innerFuel remaining pass res0 cnt0).events = 1) := by
  intro remaining
  induction remaining with
  | zero =>
    intro pass res0 cnt0
    refine ⟨fun acc => rfl, rfl, fun p => ⟨?_, ?_, ?_⟩⟩
    · simp [passLoop, countAt]
    · simp [passLoop, countAt]
    · intro h
      simp [passLoop, countAt] at h
  | succ n ih =>
    intro pass res0 cnt0
    rw [passLoop]
    have hq := preparePass_quiet env pass { res0 with passesUsed := pass } cnt0
    cases hprep : preparePass env pass { res0 with passesUsed := pass } cnt0 with
    | halted res cnt evs =>
      rw [hprep] at hq
      obtain ⟨hall, h2, h3, h4, h5⟩ := hq
      dsimp only
      refine ⟨h5, all_le_of_all_eq hall, ?_⟩
      intro p
      obtain ⟨z1, z2, z3⟩ := countAt_quiet ⟨hall, h2, h3, h4, h5⟩ p
      exact ⟨by omega, by omega, fun h => by omega⟩
    | ready res3 cnt3 evs3 doc3 ctx3 =>
      rw [hprep] at hq
      have hq3 : quietEvs pass evs3 := hq
      obtain ⟨hall3, hr3, hrt3, htg3, hm3⟩ := hq3
      dsimp only
      by_cases hemp : (getActionableQueues env.pageOrigin doc3 at_).isEmpty = true
      · rw [if_pos hemp]
        dsimp only
        refine ⟨hm3, all_le_of_all_eq hall3, ?_⟩
        intro p
        obtain ⟨z1, z2, z3⟩ := countAt_quiet ⟨hall3, hr3, hrt3, htg3, hm3⟩ p
        exact ⟨by omega, by omega, fun h => by omega⟩
      · rw [if_neg hemp]
        obtain ⟨im, iall, iT, iF⟩ := innerLoop_refresh env at_ pass innerFuel
          { actionable := getActionableQueues env.pageOrigin doc3 at_, i := 0,
            succeeded := [], tokenRefreshed := false, ctx := ctx3, res := res3, cnt := cnt3 }
        obtain ⟨if1, if2, if3⟩ := iF rfl
        by_cases habort :
            (innerLoop env at_ pass innerFuel
              { actionable := getActionableQueues env.pageOrigin doc3 at_, i := 0,
                succeeded := [], tokenRefreshed := false, ctx := ctx3, res := res3,
                cnt := cnt3 }).st.res.aborted = true
        · rw [if_pos habort]
          dsimp only
          refine ⟨?_, ?_, ?_⟩
          · intro acc
            rw [retriesMatch_append, hm3 acc, im _]
            rfl
          · simp only [List.all_append]
            rw [all_le_of_all_eq hall3, all_le_of_all_eq iall]
            rfl
          · intro p
            obtain ⟨z1, z2, z3⟩ := countAt_quiet ⟨hall3, hr3, hrt3, htg3, hm3⟩ p
            have hcA := countAt_of_all iall isRefreshFetch p
            have hcB := countAt_of_all iall isRetryEv p
            have hcC := countAt_of_all iall isTriggerEv p
            rw [countAt_append, countAt_append, countAt_append, z1, z2, z3, hcA, hcB, hcC]
            by_cases hp : p = pass
            · rw [if_pos hp, if_pos hp, if_pos hp]
              refine ⟨by omega, by omega, fun h => ?_⟩
              have := if3 (by omega)
              omega
            · rw [if_neg hp, if_neg hp, if_neg hp]
              exact ⟨by omega, by omega, fun h => by omega⟩
        · rw [if_neg habort]
          dsimp only
          obtain ⟨nm, nall, ncnt⟩ := ih (pass + 1)
            (innerLoop env at_ pass innerFuel
              { actionable := getActionableQueues env.pageOrigin doc3 at_, i := 0,
                succeeded := [], tokenRefreshed := false, ctx := ctx3, res := res3,
                cnt := cnt3 }).st.res
            (innerLoop env at_ pass innerFuel
              { actionable := getActionableQueues env.pageOrigin doc3 at_, i := 0,
                succeeded := [], tokenRefreshed := false, ctx := ctx3, res := res3,
                cnt := cnt3 }).st.cnt
          refine ⟨?_, ?_, ?_⟩
          · intro acc
            rw [retriesMatch_append, retriesMatch_append, hm3 acc, im _, nm _]
            rfl
          · simp only [List.all_append]
            rw [all_le_of_all_eq hall3, all_le_of_all_eq iall,
              all_le_mono (Nat.le_succ pass) nall]
            rfl
          · intro p
            obtain ⟨z1, z2, z3⟩ := countAt_quiet ⟨hall3, hr3, hrt3, htg3, hm3⟩ p
            have hcA := countAt_of_all iall isRefreshFetch p
            have hcB := countAt_of_all iall isRetryEv p
            have hcC := countAt_of_all iall isTriggerEv p
            obtain ⟨w1, w2, w3⟩ := ncnt p
            rw [countAt_append, countAt_append, countAt_append, countAt_append,
              countAt_append, countAt_append, z1, z2, z3, hcA, hcB, hcC]
            by_cases hp : p = pass
            · have hz := fun f => @countAt_zero_of_all_le _ (pass + 1) p nall (by omega) f
              rw [if_pos hp, if_pos hp, if_pos hp, hz, hz, hz]
              refine ⟨by omega, by omega, fun h => ?_⟩
              have := if3 (by omega)
              omega
            · rw [if_neg hp, if_neg hp, if_neg hp]
              refine ⟨by omega, by omega, fun h => ?_⟩
              have := w3 (by omega)
              omega

theorem countAt_final (n : Nat) (r : FetchRes) (p : Nat) :
    countAt isRefreshFetch p [Event.fetchEv .finalCheck n r] = 0 ∧
    countAt isRetryEv p [Event.fetchEv .finalCheck n r] = 0 ∧
    countAt isTriggerEv p [Event.fetchEv .finalCheck n r] = 0 :=
  ⟨by simp [countAt, isRefreshFetch], by simp [countAt, isRetryEv, retryKey],
   by simp [countAt, isTriggerEv, trigKey]⟩

/-- C4: within any single pass of the convergence run (identified by the
pass tag its trace events carry), at most one token-refresh fetch and at
most one retry submission happen, no matter how many forbidden responses
the pass sees; a forbidden non-login first-attempt response in a pass
forces exactly one token-refresh fetch in that pass; and every retry
submission targets exactly the queue whose forbidden response triggered
the refresh. -/
theorem claim4_single_refresh_per_pass (env : Env) (at_ : String) (innerFuel p : Nat) :
    countAt isRefreshFetch p (convergeQueues env at_ innerFuel).trace ≤ 1 ∧
    countAt isRetryEv p (convergeQueues env at_ innerFuel).trace ≤ 1 ∧
    (0 < countAt isTriggerEv p (convergeQueues env at_ innerFuel).trace →
      countAt isRefreshFetch p (convergeQueues env at_ innerFuel).trace = 1) ∧
    retriesMatch none (convergeQueues env at_ innerFuel).trace = true := by
  obtain ⟨pm, _, pcnt⟩ := passLoop_refresh env at_ innerFuel MAX_PASSES 1 initialResults
    { live := 0, fetch := 0, submit := 0 }
  obtain ⟨c1, c2, c3⟩ := pcnt p
  unfold convergeQueues
  by_cases hs : (passLoop env at_ innerFuel MAX_PASSES 1 initialResults
      { live := 0, fetch := 0, submit := 0 }).res.success = true
  · rw [if_pos hs]
    exact ⟨c1, c2, c3, pm none⟩
  · rw [if_neg hs]
    cases hf : env.fetches (passLoop env at_ innerFuel MAX_PASSES 1 initialResults
        { live := 0, fetch := 0, submit := 0 }).cnt.fetch with
    | thrown m =>
      dsimp only
      obtain ⟨f1, f2, f3⟩ := countAt_final
        (passLoop env at_ innerFuel MAX_PASSES 1 initialResults
          { live := 0, fetch := 0, submit := 0 }).res.passesUsed .errRes p
      rw [countAt_append, countAt_append, countAt_append, f1, f2, f3]
      refine ⟨by omega, by omega, fun h => by have := c3 (by omega); omega, ?_⟩
      rw [retriesMatch_append, pm none]
      simp [retriesMatch, retryKey, updTrig, trigKey]
    | ret f =>
      dsimp only
      obtain ⟨f1, f2, f3⟩ := countAt_final
        (passLoop env at_ innerFuel MAX_PASSES 1 initialResults
          { live := 0, fetch := 0, submit := 0 }).res.passesUsed .okRes p
      rw [countAt_append, countAt_append, countAt_append, f1, f2, f3]
      refine ⟨by omega, by omega, fun h => by have := c3 (by omega); omega, ?_⟩
      rw [retriesMatch_append, pm none]
      simp [retriesMatch, retryKey, updTrig, trigKey]

/-- Every submission is forbidden (HTTP 403, not login-like), so every pass
triggers the refresh-and-retry path. -/
def envC4W : Env :=
  { pageOrigin := "https://app.example"
    lives := fun _ => docPair
    fetches := fun _ =>
      .ret { doc := docPair, htmlText := "", status := 200, xCsrfToken := none }
    submits := fun _ =>
      .ret { ok := false, status := 403, is403 := true, bodySnippet := "",
             loginPage := false, diagKind := .UNKNOWN, hasQueuesTable := false,
             freshDoc := none } }

/-- Witness for C4: pass 1 of an all-forbidden run sees a refresh trigger,
and the theorem pins its token-refresh count to exactly one. -/
theorem claim4_witness :
    countAt isRefreshFetch 1 (convergeQueues envC4W "pause" 12).trace = 1 :=
  (claim4_single_refresh_per_pass envC4W "pause" 12 1).2.2.1 (by decide)

/-! ### C9: the forbidden-response classification and control decisions -/

/-- A forbidden, not-login-page submission outcome carrying classification
`k`. -/
def subC9 (k : DiagKind) : SubmitOutcome :=
  { ok := false, status := 403, is403 := true, bodySnippet := "",
    loginPage := false, diagKind := k, hasQueuesTable := false, freshDoc := none }

/-- A host whose every submission returns `subC9 k`. -/
def envC9 (k : DiagKind) : Env :=
  { pageOrigin := "https://app.example"
    lives := fun _ => docPair
    fetches := fun _ =>
      .ret { doc := docPair, htmlText := "", status := 200, xCsrfToken := none }
    submits := fun _ => .ret (subC9 k) }

/-- C9 counterexample: two runs whose submission outcomes agree on every
binary signal the spec names (success flag, status, forbidden, login page)
and differ only in the fine-grained classification — UNKNOWN versus LOGIN —
behave differently: the UNKNOWN run refreshes, retries and never aborts,
while the LOGIN run aborts at once with no refresh.  The classification is
not observability-only: the source branches on `diagKind === 'LOGIN'`. -/
theorem claim9_counterexample :
    ((subC9 .UNKNOWN).ok = (subC9 .LOGIN).ok ∧
      (subC9 .UNKNOWN).status = (subC9 .LOGIN).status ∧
      (subC9 .UNKNOWN).is403 = (subC9 .LOGIN).is403 ∧
      (subC9 .UNKNOWN).loginPage = (subC9 .LOGIN).loginPage ∧
      (subC9 .UNKNOWN).diagKind ≠ (subC9 .LOGIN).diagKind) ∧
    (convergeQueues (envC9 .UNKNOWN) "pause" 12).results.aborted = false ∧
    0 < (convergeQueues (envC9 .UNKNOWN) "pause" 12).results.stats.tokenRefreshCount ∧
    (convergeQueues (envC9 .LOGIN) "pause" 12).results.aborted = true ∧
    (convergeQueues (envC9 .LOGIN) "pause" 12).results.stats.tokenRefreshCount = 0 := by
  decide

/-- The part of a submission outcome the controller's decisions actually
read: success flag, HTTP status, the binary forbidden signal, the combined
login signal `loginPage || diagKind == LOGIN`, and the fresh document. -/
def outcomeObsEq (a b : SubmitOutcome) : Prop :=
  a.ok = b.ok ∧ a.status = b.status ∧ a.is403 = b.is403 ∧
  (a.loginPage || a.diagKind == DiagKind.LOGIN) =
    (b.loginPage || b.diagKind == DiagKind.LOGIN) ∧
  a.freshDoc = b.freshDoc

def sbObsEq : SubmitBehavior → SubmitBehavior → Prop
  | .thrown m, .thrown m' => m = m'
  | .ret r, .ret r' => outcomeObsEq r r'
  | _, _ => False

/-- Two hosts identical except that their submission outcomes may differ in
fields the controller never reads (in particular any non-LOGIN
classification change). -/
def envObsEq (e1 e2 : Env) : Prop :=
  e1.pageOrigin = e2.pageOrigin ∧ e1.lives = e2.lives ∧ e1.fetches = e2.fetches ∧
  ∀ n, sbObsEq (e1.submits n) (e2.submits n)

theorem obsOf_congr {a b : SubmitOutcome} (h : outcomeObsEq a b) : obsOf a = obsOf b := by
  obtain ⟨h1, h2, h3, h4, _⟩ := h
  simp [obsOf, h1, h2, h3, h4]

theorem handleRetry_congr {e1 e2 : Env} (hpo : e1.pageOrigin = e2.pageOrigin)
    (hsb : ∀ n, sbObsEq (e1.submits n) (e2.submits n)) (at_ : String) (pass : Nat)
    (st : InnerSt) (q : Candidate) (ev : Event) (res1 : RunResults) (f : FetchOutcome)
    (cnt2 : Counters) :
    handleRetry e1 at_ pass st q ev res1 f cnt2 =
      handleRetry e2 at_ pass st q ev res1 f cnt2 := by
  simp only [handleRetry, ← hpo]
  have hs := hsb cnt2.submit
  cases hb1 : e1.submits cnt2.submit with
  | thrown m =>
    cases hb2 : e2.submits cnt2.submit with
    | thrown m' =>
      rw [hb1, hb2] at hs
      have hm : m = m' := hs
      subst hm
      rfl
    | ret rr' =>
      rw [hb1, hb2] at hs
      exact (hs : False).elim
  | ret rr =>
    cases hb2 : e2.submits cnt2.submit with
    | thrown m' =>
      rw [hb1, hb2] at hs
      exact (hs : False).elim
    | ret rr' =>
      rw [hb1, hb2] at hs
      obtain ⟨h1, h2, h3, h4, h5⟩ := (hs : outcomeObsEq rr rr')
      dsimp only
      rw [obsOf_congr ⟨h1, h2, h3, h4, h5⟩]
      by_cases hok : rr.ok = true
      · rw [if_pos hok, if_pos (show rr'.ok = true from h1 ▸ hok)]
      · rw [if_neg hok,
          if_neg (show ¬rr'.ok = true from fun hc => hok (by rw [h1]; exact hc))]
        by_cases h403 : (rr.is403 && (rr.loginPage || rr.diagKind == DiagKind.LOGIN)) = true
        · rw [if_pos h403,
            if_pos (show (rr'.is403 && (rr'.loginPage || rr'.diagKind == DiagKind.LOGIN)) = true
              from by rw [← h3, ← h4]; exact h403)]
        · rw [if_neg h403,
            if_neg (show ¬(rr'.is403 && (rr'.loginPage || rr'.diagKind == DiagKind.LOGIN)) = true
              from fun hc => h403 (by rw [h3, h4]; exact hc))]
          rw [h2]

theorem handleRefresh_congr {e1 e2 : Env} (hpo : e1.pageOrigin = e2.pageOrigin)
    (hft : e1.fetches = e2.fetches)
    (hsb : ∀ n, sbObsEq (e1.submits n) (e2.submits n)) (at_ : String) (pass : Nat)
    (st : InnerSt) (q : Candidate) (ev : Event) (res1 : RunResults) (cnt1 : Counters) :
    handleRefresh e1 at_ pass st q ev res1 cnt1 =
      handleRefresh e2 at_ pass st q ev res1 cnt1 := by
  simp only [handleRefresh, ← hft]
  cases henv : e1.fetches cnt1.fetch with
  | thrown m => rfl
  | ret f =>
    dsimp only
    by_cases hl : fetchLoginPage f = true
    · rw [if_pos hl, if_pos hl]
    · rw [if_neg hl, if_neg hl]
      exact handleRetry_congr hpo hsb at_ pass st q ev res1 f (bumpFetch cnt1)

theorem handle403_congr {e1 e2 : Env} (hpo : e1.pageOrigin = e2.pageOrigin)
    (hft : e1.fetches = e2.fetches)
    (hsb : ∀ n, sbObsEq (e1.submits n) (e2.submits n)) (at_ : String) (pass : Nat)
    (st : InnerSt) (q : Candidate) (ev : Event) {r r' : SubmitOutcome}
    (hr : outcomeObsEq r r') (cnt1 : Counters) :
    handle403 e1 at_ pass st q ev r cnt1 = handle403 e2 at_ pass st q ev r' cnt1 := by
  obtain ⟨h1, h2, h3, h4, h5⟩ := hr
  simp only [handle403]
  by_cases hl : (r.loginPage || r.diagKind == DiagKind.LOGIN) = true
  · rw [if_pos hl,
      if_pos (show (r'.loginPage || r'.diagKind == DiagKind.LOGIN) = true from h4 ▸ hl)]
  · rw [if_neg hl,
      if_neg (show ¬(r'.loginPage || r'.diagKind == DiagKind.LOGIN) = true
        from fun hc => hl (by rw [h4]; exact hc))]
    by_cases hf : st.tokenRefreshed = true
    · simp only [hf, Bool.not_true, Bool.false_eq_true, if_false]
    · have hff : st.tokenRefreshed = false := by simpa using hf
      simp only [hff, Bool.not_false, if_true]
      exact handleRefresh_congr hpo hft hsb at_ pass st q ev (count403 st.res) cnt1

theorem handleOk_congr {e1 e2 : Env} (hpo : e1.pageOrigin = e2.pageOrigin)
    (at_ : String) (pass : Nat) (st : InnerSt) (q : Candidate) (ev : Event)
    {r r' : SubmitOutcome} (hr : outcomeObsEq r r') (cnt1 : Counters) :
    handleOk e1 at_ pass st q ev r cnt1 = handleOk e2 at_ pass st q ev r' cnt1 := by
  obtain ⟨h1, h2, h3, h4, h5⟩ := hr
  simp only [handleOk, ← hpo, h5]

theorem handleOutcome_congr {e1 e2 : Env} (hpo : e1.pageOrigin = e2.pageOrigin)
    (hft : e1.fetches = e2.fetches)
    (hsb : ∀ n, sbObsEq (e1.submits n) (e2.submits n)) (at_ : String) (pass : Nat)
    (st : InnerSt) (q : Candidate) {r r' : SubmitOutcome} (hr : outcomeObsEq r r')
    (cnt1 : Counters) :
    handleOutcome e1 at_ pass st q r cnt1 = handleOutcome e2 at_ pass st q r' cnt1 := by
  obtain ⟨h1, h2, h3, h4, h5⟩ := hr
  simp only [handleOutcome]
  rw [obsOf_congr ⟨h1, h2, h3, h4, h5⟩]
  by_cases hok : r.ok = true
  · rw [if_pos hok, if_pos (show r'.ok = true from h1 ▸ hok)]
    exact handleOk_congr hpo at_ pass st q _ ⟨h1, h2, h3, h4, h5⟩ cnt1
  · rw [if_neg hok,
      if_neg (show ¬r'.ok = true from fun hc => hok (by rw [h1]; exact hc))]
    by_cases h43 : r.is403 = true
    · rw [if_pos h43, if_pos (show r'.is403 = true from h3 ▸ h43)]
      exact handle403_congr hpo hft hsb at_ pass st q _ ⟨h1, h2, h3, h4, h5⟩ cnt1
    · rw [if_neg h43,
        if_neg (show ¬r'.is403 = true from fun hc => h43 (by rw [h3]; exact hc))]
      rw [h2]

theorem innerStep_congr {e1 e2 : Env} (hpo : e1.pageOrigin = e2.pageOrigin)
    (hlv : e1.lives = e2.lives) (hft : e1.fetches = e2.fetches)
    (hsb : ∀ n, sbObsEq (e1.submits n) (e2.submits n)) (at_ : String) (pass : Nat)
    (st : InnerSt) :
    innerStep e1 at_ pass st = innerStep e2 at_ pass st := by
  have hrs : ∀ q, recheckSkip e1 at_ st q = recheckSkip e2 at_ st q := by
    intro q
    simp only [recheckSkip, ← hpo, ← hlv]
  simp only [innerStep, hrs]
  by_cases hlen : decide (st.i < st.actionable.length) = true
  · rw [if_pos hlen, if_pos hlen]
    by_cases hskip : recheckSkip e2 at_ st (st.actionable.getD st.i default) = true
    · rw [if_pos hskip, if_pos hskip]
    · rw [if_neg hskip, if_neg hskip]
      have hs := hsb (recheckCnt st).submit
      cases hb1 : e1.submits (recheckCnt st).submit with
      | thrown m =>
        cases hb2 : e2.submits (recheckCnt st).submit with
        | thrown m' =>
          rw [hb1, hb2] at hs
          have hm : m = m' := hs
          subst hm
          rfl
        | ret rr' =>
          rw [hb1, hb2] at hs
          exact (hs : False).elim
      | ret rr =>
        cases hb2 : e2.submits (recheckCnt st).submit with
        | thrown m' =>
          rw [hb1, hb2] at hs
          exact (hs : False).elim
        | ret rr' =>
          rw [hb1, hb2] at hs
          exact handleOutcome_congr hpo hft hsb at_ pass st _ (hs : outcomeObsEq rr rr') _
  · rw [if_neg hlen, if_neg hlen]

theorem innerLoop_congr {e1 e2 : Env} (hpo : e1.pageOrigin = e2.pageOrigin)
    (hlv : e1.lives = e2.lives) (hft : e1.fetches = e2.fetches)
    (hsb : ∀ n, sbObsEq (e1.submits n) (e2.submits n)) (at_ : String) (pass : Nat) :
    ∀ fuel st, innerLoop e1 at_ pass fuel st = innerLoop e2 at_ pass fuel st := by
  intro fuel
  induction fuel with
  | zero => intro st; rfl
  | succ n ih =>
    intro st
    rw [innerLoop, innerLoop, innerStep_congr hpo hlv hft hsb at_ pass st]
    cases innerStep e2 at_ pass st with
    | done => rfl
    | halt evs st' => rfl
    | step evs st' =>
      dsimp only
      rw [ih st']

theorem preflightStep_congr {e1 e2 : Env} (hft : e1.fetches = e2.fetches) :
    preflightStep e1 = preflightStep e2 := by
  funext pass res2 cnt1 evs1 doc1 hd
  simp only [preflightStep, ← hft]

theorem preparePass_congr {e1 e2 : Env} (hlv : e1.lives = e2.lives)
    (hft : e1.fetches = e2.fetches) :
    preparePass e1 = preparePass e2 := by
  funext pass res0 cnt0
  simp only [preparePass, ← hlv, ← hft, preflightStep_congr hft]

theorem passLoop_congr {e1 e2 : Env} (hpo : e1.pageOrigin = e2.pageOrigin)
    (hlv : e1.lives = e2.lives) (hft : e1.fetches = e2.fetches)
    (hsb : ∀ n, sbObsEq (e1.submits n) (e2.submits n)) (at_ : String) (innerFuel : Nat) :
    ∀ remaining pass res0 cnt0,
      passLoop e1 at_ innerFuel remaining pass res0 cnt0 =
        passLoop e2 at_ innerFuel remaining pass res0 cnt0 := by
  intro remaining
  induction remaining with
  | zero => intro pass res0 cnt0; rfl
  | succ n ih =>
    intro pass res0 cnt0
    rw [passLoop, passLoop, preparePass_congr hlv hft]
    cases preparePass e2 pass { res0 with passesUsed := pass } cnt0 with
    | halted res cnt evs => rfl
    | ready res3 cnt3 evs3 doc3 ctx3 =>
      dsimp only
      rw [hpo, innerLoop_congr hpo hlv hft hsb at_ pass innerFuel, ih]

/-- C9 amended: the controller's behavior — its whole run output, so in
particular every retry and abort decision — is invariant under any change
to the submission outcomes that preserves the success flag, the HTTP
status, the binary forbidden signal, the combined login signal
`loginPage || diagKind == LOGIN`, and the fresh document.  The
classification enters decisions only through its LOGIN value; non-LOGIN
classification values are observability-only. -/
theorem claim9_amended (e1 e2 : Env) (at_ : String) (innerFuel : Nat)
    (h : envObsEq e1 e2) :
    convergeQueues e1 at_ innerFuel = convergeQueues e2 at_ innerFuel := by
  obtain ⟨hpo, hlv, hft, hsb⟩ := h
  unfold convergeQueues
  rw [passLoop_congr hpo hlv hft hsb at_ innerFuel MAX_PASSES 1 initialResults
    { live := 0, fetch := 0, submit := 0 }, hpo, hft]

/-- Witness for C9: changing every outcome's classification from UNKNOWN to
CSRF (both non-LOGIN) leaves the whole run unchanged. -/
theorem claim9_witness :
    convergeQueues (envC9 .UNKNOWN) "pause" 12 = convergeQueues (envC9 .CSRF) "pause" 12 :=
  claim9_amended (envC9 .UNKNOWN) (envC9 .CSRF) "pause" 12
    ⟨rfl, rfl, rfl, fun _ => ⟨rfl, rfl, rfl, by decide, rfl⟩⟩
end SQKS
